import Mathlib

/-!
Verification development for the `mur` cycle-accounting RISC-V simulators.
The definitions below are a shallow embedding of the Rust sources:
`mem.rs`, `bus.rs`, `exception.rs`, `isa.rs`, `dart.rs`, `kronos.rs`,
`atlas.rs`.  Unsigned 64-bit machine words are modelled as `Nat` kept below
2^64 by explicit reductions exactly where the Rust code wraps; signed casts
go through `Int`.  Fallible operations return `EResult`, whose `panic`
constructor models a Rust panic (an out-of-bounds `Vec` index).
-/

namespace Mur

/-- The closed exception taxonomy of `exception.rs`. -/
inductive Exception where
  | InstructionAddrMisaligned (v : Nat)
  | InstructionAccessFault (v : Nat)
  | IllegalInstruction (v : Nat)
  | Breakpoint (v : Nat)
  | LoadAccessMisaligned (v : Nat)
  | LoadAccessFault (v : Nat)
  | StoreAMOAddrMisaligned (v : Nat)
  | StoreAMOAccessFault (v : Nat)
  | EnvironmentCallFromUMode (v : Nat)
  | EnvironmentCallFromSMode (v : Nat)
  | EnvironmentCallFromMMode (v : Nat)
  | InstructionPageFault (v : Nat)
  | LoadPageFault (v : Nat)
  | StoreAMOPageFault (v : Nat)
deriving DecidableEq, Repr

/-- `Exception::is_fatal` from `exception.rs`. -/
def Exception.is_fatal : Exception → Bool
  | .InstructionAddrMisaligned _ => true
  | .InstructionAccessFault _ => true
  | .LoadAccessFault _ => true
  | .StoreAMOAddrMisaligned _ => true
  | .StoreAMOAccessFault _ => true
  | .IllegalInstruction _ => true
  | _ => false

/-- Result of a fallible Rust computation: success, an architectural
exception (Rust `Err`), or a Rust panic (out-of-bounds `Vec` index). -/
inductive EResult (α : Type) where
  | ok (v : α)
  | exc (e : Exception)
  | panic
deriving DecidableEq, Repr

/-- True exactly when a result is a Rust panic. -/
def EResult.isPanic {α : Type} : EResult α → Bool
  | .panic => true
  | _ => false

/-- Access width descriptor, `Bits` from `mem.rs`. -/
structure Bits where
  size : Nat
deriving DecidableEq, Repr

def B8 : Bits := ⟨1⟩
def B16 : Bits := ⟨2⟩
def B32 : Bits := ⟨4⟩
def B64 : Bits := ⟨8⟩

/-- `Mem` from `mem.rs`: a `Vec<u8>` modelled as a length together with a
byte function; reads reduce mod 256, encoding the `u8` element type. -/
structure Mem where
  size : Nat
  bytes : Nat → Nat

/-- The little-endian multi-byte read loop of `Mem::load`; `none` models the
panic raised by an out-of-bounds `Vec` index. -/
def Mem.loadBytes (m : Mem) (addr : Nat) : Nat → Option Nat
  | 0 => some 0
  | n+1 =>
    if addr < m.size then
      match m.loadBytes (addr+1) n with
      | some rest => some (m.bytes addr % 256 + 256 * rest)
      | none => none
    else none

/-- `Mem::load` from `mem.rs`. -/
def Mem.load (m : Mem) (addr : Nat) (bits : Bits) : Option Nat :=
  m.loadBytes addr bits.size

/-- The little-endian multi-byte write loop of `Mem::store`. -/
def Mem.storeBytes (m : Mem) (addr value : Nat) : Nat → Option Mem
  | 0 => some m
  | n+1 =>
    if addr < m.size then
      Mem.storeBytes ⟨m.size, fun j => if j = addr then value % 256 else m.bytes j⟩
        (addr+1) (value / 256) n
    else none

/-- `Mem::store` from `mem.rs`. -/
def Mem.store (m : Mem) (addr : Nat) (bits : Bits) (value : Nat) : Option Mem :=
  m.storeBytes addr value bits.size

/-- `RAM_BASE` from `bus.rs`. -/
def RAM_BASE : Nat := 0x80000000

/-- `RAM_SIZE` from `bus.rs`. -/
def RAM_SIZE : Nat := 1024 * 1024 * 128

/-- `RAM_END` from `bus.rs`. -/
def RAM_END : Nat := RAM_SIZE + RAM_BASE - 1

/-- `Bus` from `bus.rs`. -/
structure Bus where
  mem : Mem

/-- `Bus::new`: a RAM-sized memory with the program spliced in at offset 0. -/
def Bus.new (program : List Nat) : Bus :=
  ⟨⟨RAM_SIZE, fun i => if i < program.length then program.getD i 0 else 0⟩⟩

/-- `Bus::load` from `bus.rs`: range-check the base address only, then defer
to `Mem::load` at the internal offset. -/
def Bus.load (b : Bus) (addr : Nat) (bits : Bits) : EResult Nat :=
  if RAM_BASE ≤ addr ∧ addr ≤ RAM_END then
    match b.mem.load (addr - RAM_BASE) bits with
    | some v => .ok v
    | none => .panic
  else .exc (.LoadAccessFault addr)

/-- `Bus::store` from `bus.rs`. -/
def Bus.store (b : Bus) (addr : Nat) (bits : Bits) (value : Nat) : EResult Bus :=
  if RAM_BASE ≤ addr ∧ addr ≤ RAM_END then
    match b.mem.store (addr - RAM_BASE) bits value with
    | some m => .ok ⟨m⟩
    | none => .panic
  else .exc (.StoreAMOAccessFault addr)

section MemLemmas

lemma mod_mul_decomp (a b c : Nat) (hb : 0 < b) (hc : 0 < c) :
    a % (b * c) = a % b + b * (a / b % c) := by
  have h1 : a % b < b := Nat.mod_lt _ hb
  have h2 : a / b % c < c := Nat.mod_lt _ hc
  have key : a = a % b + b * (a / b % c) + b * c * (a / b / c) := by
    have d1 := Nat.div_add_mod a b
    have d2 := Nat.div_add_mod (a / b) c
    calc a = b * (a / b) + a % b := d1.symm
      _ = b * (c * (a / b / c) + a / b % c) + a % b := by rw [d2]
      _ = a % b + b * (a / b % c) + b * c * (a / b / c) := by ring
  have hlt : a % b + b * (a / b % c) < b * c := by
    have h3 : b + b * (a / b % c) = b * (a / b % c + 1) := by ring
    have h4 : b * (a / b % c + 1) ≤ b * c := Nat.mul_le_mul_left _ h2
    omega
  conv_lhs => rw [key]
  rw [Nat.add_mul_mod_self_left, Nat.mod_eq_of_lt hlt]

lemma storeBytes_spec (n : Nat) :
    ∀ (m : Mem) (addr v : Nat), addr + n ≤ m.size →
    ∃ m', m.storeBytes addr v n = some m' ∧ m'.size = m.size ∧
      (∀ j, j < addr ∨ addr + n ≤ j → m'.bytes j = m.bytes j) ∧
      m'.loadBytes addr n = some (v % 256 ^ n) := by
  induction n with
  | zero =>
    intro m addr v _
    exact ⟨m, rfl, rfl, fun j _ => rfl, by simp [Mem.loadBytes, Nat.mod_one]⟩
  | succ n ih =>
    intro m addr v hle
    have ha : addr < m.size := by omega
    obtain ⟨m2, hst, hsz, hout, hld⟩ :=
      ih ⟨m.size, fun j => if j = addr then v % 256 else m.bytes j⟩
        (addr+1) (v / 256) (by simp; omega)
    simp only at hsz hout
    refine ⟨m2, ?_, hsz, ?_, ?_⟩
    · simp only [Mem.storeBytes, if_pos ha]
      exact hst
    · intro j hj
      have hj1 : j < addr + 1 ∨ addr + 1 + n ≤ j := by omega
      rw [hout j hj1, if_neg (by omega)]
    · have hba : m2.bytes addr = v % 256 := by
        rw [hout addr (Or.inl (by omega)), if_pos rfl]
      have hsz2 : addr < m2.size := by omega
      have hstep : m2.loadBytes addr (n+1) =
          some (m2.bytes addr % 256 + 256 * (v / 256 % 256 ^ n)) := by
        simp only [Mem.loadBytes]
        rw [if_pos hsz2, hld]
      rw [hstep, hba]
      congr 1
      have hmm : v % 256 % 256 = v % 256 := by omega
      rw [hmm, pow_succ, mul_comm (256 ^ n) 256,
        mod_mul_decomp v 256 (256 ^ n) (by norm_num) (by positivity)]

lemma loadBytes_total (n : Nat) :
    ∀ (m : Mem) (addr : Nat), addr + n ≤ m.size →
    ∃ v, m.loadBytes addr n = some v := by
  induction n with
  | zero => intro m addr _; exact ⟨0, rfl⟩
  | succ n ih =>
    intro m addr hle
    obtain ⟨v, hv⟩ := ih m (addr+1) (by omega)
    refine ⟨m.bytes addr % 256 + 256 * v, ?_⟩
    simp only [Mem.loadBytes]
    rw [if_pos (by omega), hv]

end MemLemmas

/-- Contract of the bus after correction: faults exactly on addresses outside
the RAM window; an in-window access succeeds when it also fits below the top
of RAM, and a store changes no byte outside the written range. -/
def busContract (b : Bus) (addr : Nat) (bits : Bits) (value : Nat) : Prop :=
  ((Bus.load b addr bits = .exc (.LoadAccessFault addr)) ↔
    ¬ (RAM_BASE ≤ addr ∧ addr < RAM_BASE + RAM_SIZE)) ∧
  ((RAM_BASE ≤ addr ∧ addr - RAM_BASE + bits.size ≤ RAM_SIZE) →
    ∃ v, Bus.load b addr bits = .ok v) ∧
  ((Bus.store b addr bits value = .exc (.StoreAMOAccessFault addr)) ↔
    ¬ (RAM_BASE ≤ addr ∧ addr < RAM_BASE + RAM_SIZE)) ∧
  ((RAM_BASE ≤ addr ∧ addr - RAM_BASE + bits.size ≤ RAM_SIZE) →
    ∃ b', Bus.store b addr bits value = .ok b' ∧ b'.mem.size = b.mem.size ∧
      ∀ j, j < addr - RAM_BASE ∨ addr - RAM_BASE + bits.size ≤ j →
        b'.mem.bytes j = b.mem.bytes j)

/-- C7 (amended): on a RAM-sized bus, a load or store faults with
`LoadAccessFault` / `StoreAMOAccessFault` exactly when the base address is
outside the RAM window; an in-window access whose whole byte range fits in
RAM succeeds, and a successful store leaves all bytes outside the written
range unchanged.  (The claim's unconditional "otherwise succeeds" is false:
an in-window access overrunning the top of RAM panics, see the
counterexample.) -/
theorem c7_bus_fault_contract_amended (b : Bus) (addr : Nat) (bits : Bits)
    (value : Nat) (hsz : b.mem.size = RAM_SIZE)
    (hw : bits.size = 1 ∨ bits.size = 2 ∨ bits.size = 4 ∨ bits.size = 8) :
    busContract b addr bits value := by
  have hwpos : 0 < bits.size := by rcases hw with h | h | h | h <;> omega
  have hiff : (RAM_BASE ≤ addr ∧ addr ≤ RAM_END) ↔
      (RAM_BASE ≤ addr ∧ addr < RAM_BASE + RAM_SIZE) := by
    unfold RAM_END RAM_BASE RAM_SIZE; omega
  refine ⟨?_, ?_, ?_, ?_⟩
  · constructor
    · intro h hc
      rw [← hiff] at hc
      unfold Bus.load at h
      rw [if_pos hc] at h
      rcases hv : b.mem.load (addr - RAM_BASE) bits with _ | v <;> rw [hv] at h <;> simp at h
    · intro hc
      rw [← hiff] at hc
      unfold Bus.load
      rw [if_neg hc]
  · rintro ⟨h1, h2⟩
    have hin : RAM_BASE ≤ addr ∧ addr ≤ RAM_END := by
      unfold RAM_END RAM_BASE RAM_SIZE at *; omega
    obtain ⟨v, hv⟩ := loadBytes_total bits.size b.mem (addr - RAM_BASE) (by omega)
    refine ⟨v, ?_⟩
    unfold Bus.load
    rw [if_pos hin]
    unfold Mem.load
    rw [hv]
  · constructor
    · intro h hc
      rw [← hiff] at hc
      unfold Bus.store at h
      rw [if_pos hc] at h
      rcases hv : b.mem.store (addr - RAM_BASE) bits value with _ | m <;>
        rw [hv] at h <;> simp at h
    · intro hc
      rw [← hiff] at hc
      unfold Bus.store
      rw [if_neg hc]
  · rintro ⟨h1, h2⟩
    have hin : RAM_BASE ≤ addr ∧ addr ≤ RAM_END := by
      unfold RAM_END RAM_BASE RAM_SIZE at *; omega
    obtain ⟨m', hst, hsize, hout, _⟩ :=
      storeBytes_spec bits.size b.mem (addr - RAM_BASE) value (by omega)
    refine ⟨⟨m'⟩, ?_, hsize, hout⟩
    unfold Bus.store
    rw [if_pos hin]
    unfold Mem.store
    rw [hst]

/-- Witness for C7: the contract holds for a 4-byte access at the bottom of
RAM on a freshly created bus. -/
theorem c7_bus_fault_contract_amended_witness :
    busContract (Bus.new []) RAM_BASE B32 0 :=
  c7_bus_fault_contract_amended (Bus.new []) RAM_BASE B32 0 rfl
    (by simp [B32])

/-- Counterexample for C7: the address `RAM_END` is inside the RAM window,
yet an 8-byte load there neither faults nor succeeds — the underlying
memory access runs past the end of the RAM buffer and panics. -/
theorem c7_load_at_ram_end_panics :
    Bus.load (Bus.new []) RAM_END B64 = .panic ∧
    RAM_BASE ≤ RAM_END ∧ RAM_END < RAM_BASE + RAM_SIZE := by
  refine ⟨by decide, by decide, by decide⟩

/-- C8 (amended): for a RAM-sized bus, an in-window address whose byte range
fits in RAM, and a width in 1,2,4,8: storing and then loading at that
address succeeds and returns the value reduced to its low `width * 8` bits.
(The claim's version without the fit condition is false at `RAM_END`, see
the counterexample.) -/
theorem c8_roundtrip_amended (b : Bus) (addr : Nat) (bits : Bits)
    (value : Nat) (hsz : b.mem.size = RAM_SIZE)
    (hw : bits.size = 1 ∨ bits.size = 2 ∨ bits.size = 4 ∨ bits.size = 8)
    (h1 : RAM_BASE ≤ addr) (h2 : addr - RAM_BASE + bits.size ≤ RAM_SIZE) :
    ∃ b', Bus.store b addr bits value = .ok b' ∧
      Bus.load b' addr bits = .ok (value % 2 ^ (bits.size * 8)) := by
  have hwpos : 0 < bits.size := by rcases hw with h | h | h | h <;> omega
  have hin : RAM_BASE ≤ addr ∧ addr ≤ RAM_END := by
    unfold RAM_END RAM_BASE RAM_SIZE at *; omega
  obtain ⟨m', hst, hsize, _, hld⟩ :=
    storeBytes_spec bits.size b.mem (addr - RAM_BASE) value (by omega)
  refine ⟨⟨m'⟩, ?_, ?_⟩
  · unfold Bus.store
    rw [if_pos hin]
    unfold Mem.store
    rw [hst]
  · unfold Bus.load
    rw [if_pos hin]
    unfold Mem.load
    rw [hld]
    rw [show (256 : Nat) = 2 ^ 8 by norm_num, ← pow_mul, mul_comm]

/-- Witness for C8: round-trip of the value 0x1234567890 as an 8-byte access
at `RAM_BASE` on a fresh bus. -/
theorem c8_roundtrip_amended_witness :
    ∃ b', Bus.store (Bus.new []) RAM_BASE B64 0x1234567890 = .ok b' ∧
      Bus.load b' RAM_BASE B64 = .ok (0x1234567890 % 2 ^ (B64.size * 8)) :=
  c8_roundtrip_amended (Bus.new []) RAM_BASE B64 0x1234567890 rfl
    (by simp [B64]) (by unfold RAM_BASE; omega) (by decide)

/-- Counterexample for C8: at address `RAM_END` — which is inside
`[RAM_BASE, RAM_BASE + RAM_SIZE)` — an 8-byte store does not succeed at
all: it overruns the RAM buffer and panics, so the store-then-load
round-trip claimed for every in-RAM address fails there. -/
theorem c8_roundtrip_fails_at_ram_end :
    (Bus.store (Bus.new []) RAM_END B64 5).isPanic = true ∧
    RAM_BASE ≤ RAM_END ∧ RAM_END < RAM_BASE + RAM_SIZE := by
  refine ⟨by decide, by decide, by decide⟩

/-- The modulus of wrapping unsigned 64-bit arithmetic. -/
def U64 : Nat := 18446744073709551616

/-- The modulus of unsigned 32-bit arithmetic. -/
def U32 : Nat := 4294967296

/-- Arithmetic (sign-propagating) right shift on `Int`, the semantics of
Rust's `>>` on signed integers. -/
def sraI (x : Int) (s : Nat) : Int :=
  match x with
  | .ofNat n => .ofNat (n >>> s)
  | .negSucc n => .negSucc (n >>> s)

/-- Rust cast to `i32`: truncate to 32 bits, reinterpret two's complement. -/
def toI32 (t : Nat) : Int :=
  if t % U32 < 2147483648 then ((t % U32 : Nat) : Int)
  else ((t % U32 : Nat) : Int) - (U32 : Int)

/-- Rust cast to `i64`: truncate to 64 bits, reinterpret two's complement. -/
def toI64 (t : Nat) : Int :=
  if t % U64 < 9223372036854775808 then ((t % U64 : Nat) : Int)
  else ((t % U64 : Nat) : Int) - (U64 : Int)

/-- Rust cast to `i16`. -/
def toI16 (t : Nat) : Int :=
  if t % 65536 < 32768 then ((t % 65536 : Nat) : Int)
  else ((t % 65536 : Nat) : Int) - 65536

/-- Rust cast to `i8`. -/
def toI8 (t : Nat) : Int :=
  if t % 256 < 128 then ((t % 256 : Nat) : Int)
  else ((t % 256 : Nat) : Int) - 256

/-- Rust cast of a signed value to `u64`: two's-complement encoding. -/
def u64Of (x : Int) : Nat := (x % (U64 : Int)).toNat

/-- `opcode` field extractor from `isa.rs`. -/
def opcode (ins : Nat) : Nat := ins &&& 0x7f

/-- `rd` field extractor from `isa.rs`. -/
def rd (ins : Nat) : Nat := (ins >>> 7) &&& 0b11111

/-- `rs1` field extractor from `isa.rs`. -/
def rs1 (ins : Nat) : Nat := (ins >>> 15) &&& 0b11111

/-- `rs2` field extractor from `isa.rs`. -/
def rs2 (ins : Nat) : Nat := (ins >>> 20) &&& 0b11111

/-- `funct3` field extractor from `isa.rs`. -/
def funct3 (ins : Nat) : Nat := (ins >>> 12) &&& 0b111

/-- `funct7` field extractor from `isa.rs`. -/
def funct7 (ins : Nat) : Nat := ins >>> 25

/-- `i_imm` from `isa.rs`: arithmetic shift of the sign-interpreted high
twelve bits. -/
def i_imm (ins : Nat) : Nat := u64Of (sraI (toI32 (ins &&& 0xfff00000)) 20)

/-- `s_imm` from `isa.rs`. -/
def s_imm (ins : Nat) : Nat :=
  u64Of (sraI (toI32 (ins &&& 0xfe000000)) 20) ||| ((ins >>> 7) &&& 0x1f)

/-- `u_imm` from `isa.rs`. -/
def u_imm (ins : Nat) : Nat := u64Of (toI32 (ins &&& 0xfffff000))

/-- `b_imm` from `isa.rs`. -/
def b_imm (ins : Nat) : Nat :=
  u64Of (sraI (toI32 (ins &&& 0x80000000)) 19)
    ||| ((ins &&& 0x80) <<< 4)
    ||| ((ins >>> 20) &&& 0x7e0)
    ||| ((ins >>> 7) &&& 0x1e)

/-- `j_imm` from `isa.rs`. -/
def j_imm (ins : Nat) : Nat :=
  u64Of (sraI (toI32 (ins &&& 0x80000000)) 11)
    ||| (ins &&& 0xff000)
    ||| ((ins >>> 9) &&& 0x800)
    ||| ((ins >>> 20) &&& 0x7fe)

/-- The base integer extension `Rv32i` from `isa.rs`.  Before `ex`, `rs1`
and `rs2` hold register indices; after `ex` they hold register values. -/
inductive Rv32i where
  | Lui (rd imm : Nat)
  | Auipc (rd imm : Nat)
  | Jal (rd imm : Nat)
  | Jalr (rd rs1 imm : Nat)
  | Beq (rs1 rs2 imm : Nat)
  | Bne (rs1 rs2 imm : Nat)
  | Blt (rs1 rs2 imm : Nat)
  | Bge (rs1 rs2 imm : Nat)
  | Bltu (rs1 rs2 imm : Nat)
  | Bgeu (rs1 rs2 imm : Nat)
  | Lb (rd rs1 imm : Nat)
  | Lh (rd rs1 imm : Nat)
  | Lw (rd rs1 imm : Nat)
  | Lbu (rd rs1 imm : Nat)
  | Lhu (rd rs1 imm : Nat)
  | Sb (rs1 rs2 imm : Nat)
  | Sh (rs1 rs2 imm : Nat)
  | Sw (rs1 rs2 imm : Nat)
  | Addi (rd rs1 imm : Nat)
  | Slti (rd rs1 imm : Nat)
  | Sltiu (rd rs1 imm : Nat)
  | Xori (rd rs1 imm : Nat)
  | Ori (rd rs1 imm : Nat)
  | Andi (rd rs1 imm : Nat)
  | Slli (rd rs1 shamt : Nat)
  | Srli (rd rs1 shamt : Nat)
  | Srai (rd rs1 shamt : Nat)
  | Add (rd rs1 rs2 : Nat)
  | Sub (rd rs1 rs2 : Nat)
  | Sll (rd rs1 rs2 : Nat)
  | Slt (rd rs1 rs2 : Nat)
  | Sltu (rd rs1 rs2 : Nat)
  | Xor (rd rs1 rs2 : Nat)
  | Srl (rd rs1 rs2 : Nat)
  | Sra (rd rs1 rs2 : Nat)
  | Or (rd rs1 rs2 : Nat)
  | And (rd rs1 rs2 : Nat)
deriving DecidableEq, Repr

/-- The 64-bit width extension `Rv64i` from `isa.rs`. -/
inductive Rv64i where
  | Lwu (rd rs1 imm : Nat)
  | Ld (rd rs1 imm : Nat)
  | Sd (rs1 rs2 imm : Nat)
  | Addiw (rd rs1 imm : Nat)
  | Slliw (rd rs1 shamt : Nat)
  | Srliw (rd rs1 shamt : Nat)
  | Sraiw (rd rs1 shamt : Nat)
  | Addw (rd rs1 rs2 : Nat)
  | Subw (rd rs1 rs2 : Nat)
  | Sllw (rd rs1 rs2 : Nat)
  | Srlw (rd rs1 rs2 : Nat)
  | Sraw (rd rs1 rs2 : Nat)
deriving DecidableEq, Repr

/-- `Rv32i::id` from `isa.rs`: decode a 32-bit word into the base
extension.  Note the shift-immediate `shamt` is masked with 0xf. -/
def Rv32i.id (ins : Nat) : Except Exception Rv32i :=
  match funct7 ins, funct3 ins, opcode ins with
  | _, _, 0b0110111 => .ok (.Lui (rd ins) (u_imm ins))
  | _, _, 0b0010111 => .ok (.Auipc (rd ins) (u_imm ins))
  | _, _, 0b1101111 => .ok (.Jal (rd ins) (j_imm ins))
  | _, 0b000, 0b1100111 => .ok (.Jalr (rd ins) (rs1 ins) (i_imm ins))
  | _, 0b000, 0b1100011 => .ok (.Beq (rs1 ins) (rs2 ins) (b_imm ins))
  | _, 0b001, 0b1100011 => .ok (.Bne (rs1 ins) (rs2 ins) (b_imm ins))
  | _, 0b100, 0b1100011 => .ok (.Blt (rs1 ins) (rs2 ins) (b_imm ins))
  | _, 0b101, 0b1100011 => .ok (.Bge (rs1 ins) (rs2 ins) (b_imm ins))
  | _, 0b110, 0b1100011 => .ok (.Bltu (rs1 ins) (rs2 ins) (b_imm ins))
  | _, 0b111, 0b1100011 => .ok (.Bgeu (rs1 ins) (rs2 ins) (b_imm ins))
  | _, 0b000, 0b0000011 => .ok (.Lb (rd ins) (rs1 ins) (i_imm ins))
  | _, 0b001, 0b0000011 => .ok (.Lh (rd ins) (rs1 ins) (i_imm ins))
  | _, 0b010, 0b0000011 => .ok (.Lw (rd ins) (rs1 ins) (i_imm ins))
  | _, 0b100, 0b0000011 => .ok (.Lbu (rd ins) (rs1 ins) (i_imm ins))
  | _, 0b101, 0b0000011 => .ok (.Lhu (rd ins) (rs1 ins) (i_imm ins))
  | _, 0b000, 0b0100011 => .ok (.Sb (rs1 ins) (rs2 ins) (s_imm ins))
  | _, 0b001, 0b0100011 => .ok (.Sh (rs1 ins) (rs2 ins) (s_imm ins))
  | _, 0b010, 0b0100011 => .ok (.Sw (rs1 ins) (rs2 ins) (s_imm ins))
  | _, 0b000, 0b0010011 => .ok (.Addi (rd ins) (rs1 ins) (i_imm ins))
  | _, 0b010, 0b0010011 => .ok (.Slti (rd ins) (rs1 ins) (i_imm ins))
  | _, 0b011, 0b0010011 => .ok (.Sltiu (rd ins) (rs1 ins) (i_imm ins))
  | _, 0b100, 0b0010011 => .ok (.Xori (rd ins) (rs1 ins) (i_imm ins))
  | _, 0b110, 0b0010011 => .ok (.Ori (rd ins) (rs1 ins) (i_imm ins))
  | _, 0b111, 0b0010011 => .ok (.Andi (rd ins) (rs1 ins) (i_imm ins))
  | 0b0000000, 0b001, 0b0010011 => .ok (.Slli (rd ins) (rs1 ins) ((i_imm ins % U32) &&& 0xf))
  | 0b0000000, 0b101, 0b0010011 => .ok (.Srli (rd ins) (rs1 ins) ((i_imm ins % U32) &&& 0xf))
  | 0b0100000, 0b101, 0b0010011 => .ok (.Srai (rd ins) (rs1 ins) ((i_imm ins % U32) &&& 0xf))
  | 0b0000000, 0b000, 0b0110011 => .ok (.Add (rd ins) (rs1 ins) (rs2 ins))
  | 0b0100000, 0b000, 0b0110011 => .ok (.Sub (rd ins) (rs1 ins) (rs2 ins))
  | 0b0000000, 0b001, 0b0110011 => .ok (.Sll (rd ins) (rs1 ins) (rs2 ins))
  | 0b0000000, 0b010, 0b0110011 => .ok (.Slt (rd ins) (rs1 ins) (rs2 ins))
  | 0b0000000, 0b011, 0b0110011 => .ok (.Sltu (rd ins) (rs1 ins) (rs2 ins))
  | 0b0000000, 0b100, 0b0110011 => .ok (.Xor (rd ins) (rs1 ins) (rs2 ins))
  | 0b0000000, 0b101, 0b0110011 => .ok (.Srl (rd ins) (rs1 ins) (rs2 ins))
  | 0b0100000, 0b101, 0b0110011 => .ok (.Sra (rd ins) (rs1 ins) (rs2 ins))
  | 0b0000000, 0b110, 0b0110011 => .ok (.Or (rd ins) (rs1 ins) (rs2 ins))
  | 0b0000000, 0b111, 0b0110011 => .ok (.And (rd ins) (rs1 ins) (rs2 ins))
  | _, _, _ => .error (.IllegalInstruction ins)

/-- `Rv64i::id` from `isa.rs`.  Note the word shift-immediate `shamt` is
masked with 0xf. -/
def Rv64i.id (ins : Nat) : Except Exception Rv64i :=
  match funct7 ins, funct3 ins, opcode ins with
  | _, 0b110, 0b0000011 => .ok (.Lwu (rd ins) (rs1 ins) (i_imm ins))
  | _, 0b011, 0b0000011 => .ok (.Ld (rd ins) (rs1 ins) (i_imm ins))
  | _, 0b011, 0b0100011 => .ok (.Sd (rs1 ins) (rs2 ins) (s_imm ins))
  | _, 0b000, 0b0011011 => .ok (.Addiw (rd ins) (rs1 ins) (i_imm ins))
  | 0b0000000, 0b001, 0b0011011 => .ok (.Slliw (rd ins) (rs1 ins) ((i_imm ins % U32) &&& 0xf))
  | 0b0000000, 0b101, 0b0011011 => .ok (.Srliw (rd ins) (rs1 ins) ((i_imm ins % U32) &&& 0xf))
  | 0b0100000, 0b101, 0b0011011 => .ok (.Sraiw (rd ins) (rs1 ins) ((i_imm ins % U32) &&& 0xf))
  | 0b0000000, 0b000, 0b0111011 => .ok (.Addw (rd ins) (rs1 ins) (rs2 ins))
  | 0b0100000, 0b000, 0b0111011 => .ok (.Subw (rd ins) (rs1 ins) (rs2 ins))
  | 0b0000000, 0b001, 0b0111011 => .ok (.Sllw (rd ins) (rs1 ins) (rs2 ins))
  | 0b0000000, 0b101, 0b0111011 => .ok (.Srlw (rd ins) (rs1 ins) (rs2 ins))
  | 0b0100000, 0b101, 0b0111011 => .ok (.Sraw (rd ins) (rs1 ins) (rs2 ins))
  | _, _, _ => .error (.IllegalInstruction ins)

/-- `Rv32i::ex` from `isa.rs`: substitute register values for source
register indices; shift-immediate `shamt` is re-masked with 0x1f. -/
def Rv32i.ex (i : Rv32i) (regs : List Nat) : Rv32i :=
  match i with
  | .Lui rd imm => .Lui rd imm
  | .Auipc rd imm => .Auipc rd imm
  | .Jal rd imm => .Jal rd imm
  | .Jalr rd a imm => .Jalr rd (regs.getD a 0) imm
  | .Beq a b imm => .Beq (regs.getD a 0) (regs.getD b 0) imm
  | .Bne a b imm => .Bne (regs.getD a 0) (regs.getD b 0) imm
  | .Blt a b imm => .Blt (regs.getD a 0) (regs.getD b 0) imm
  | .Bge a b imm => .Bge (regs.getD a 0) (regs.getD b 0) imm
  | .Bltu a b imm => .Bltu (regs.getD a 0) (regs.getD b 0) imm
  | .Bgeu a b imm => .Bgeu (regs.getD a 0) (regs.getD b 0) imm
  | .Lb rd a imm => .Lb rd (regs.getD a 0) imm
  | .Lh rd a imm => .Lh rd (regs.getD a 0) imm
  | .Lw rd a imm => .Lw rd (regs.getD a 0) imm
  | .Lbu rd a imm => .Lbu rd (regs.getD a 0) imm
  | .Lhu rd a imm => .Lhu rd (regs.getD a 0) imm
  | .Sb a b imm => .Sb (regs.getD a 0) (regs.getD b 0) imm
  | .Sh a b imm => .Sh (regs.getD a 0) (regs.getD b 0) imm
  | .Sw a b imm => .Sw (regs.getD a 0) (regs.getD b 0) imm
  | .Addi rd a imm => .Addi rd (regs.getD a 0) imm
  | .Slti rd a imm => .Slti rd (regs.getD a 0) imm
  | .Sltiu rd a imm => .Sltiu rd (regs.getD a 0) imm
  | .Xori rd a imm => .Xori rd (regs.getD a 0) imm
  | .Ori rd a imm => .Ori rd (regs.getD a 0) imm
  | .Andi rd a imm => .Andi rd (regs.getD a 0) imm
  | .Slli rd a shamt => .Slli rd (regs.getD a 0) (shamt &&& 0x1f)
  | .Srli rd a shamt => .Srli rd (regs.getD a 0) (shamt &&& 0x1f)
  | .Srai rd a shamt => .Srai rd (regs.getD a 0) (shamt &&& 0x1f)
  | .Add rd a b => .Add rd (regs.getD a 0) (regs.getD b 0)
  | .Sub rd a b => .Sub rd (regs.getD a 0) (regs.getD b 0)
  | .Sll rd a b => .Sll rd (regs.getD a 0) (regs.getD b 0)
  | .Slt rd a b => .Slt rd (regs.getD a 0) (regs.getD b 0)
  | .Sltu rd a b => .Sltu rd (regs.getD a 0) (regs.getD b 0)
  | .Xor rd a b => .Xor rd (regs.getD a 0) (regs.getD b 0)
  | .Srl rd a b => .Srl rd (regs.getD a 0) (regs.getD b 0)
  | .Sra rd a b => .Sra rd (regs.getD a 0) (regs.getD b 0)
  | .Or rd a b => .Or rd (regs.getD a 0) (regs.getD b 0)
  | .And rd a b => .And rd (regs.getD a 0) (regs.getD b 0)

/-- `Rv32i::wr` from `isa.rs`: effects of a resolved base-extension
instruction on the destination register, the bus, and the program counter. -/
def Rv32i.wr (i : Rv32i) (pc : Nat) (regs : List Nat) (bus : Bus) :
    EResult (Nat × List Nat × Bus) :=
  match i with
  | .Lui rd imm => .ok ((pc + 4) % U64, regs.set rd imm, bus)
  | .Auipc rd imm => .ok ((pc + 4) % U64, regs.set rd ((pc + imm) % U64), bus)
  | .Jal rd imm => .ok ((pc + imm) % U64, regs.set rd ((pc + 4) % U64), bus)
  | .Jalr rd a imm =>
    .ok (((a + imm) % U64) &&& 0xfffffffffffffffe, regs.set rd ((pc + 4) % U64), bus)
  | .Beq a b imm =>
    .ok (if a = b then (pc + imm) % U64 else (pc + 4) % U64, regs, bus)
  | .Bne a b imm =>
    .ok (if a ≠ b then (pc + imm) % U64 else (pc + 4) % U64, regs, bus)
  | .Blt a b imm =>
    .ok (if toI64 a < toI64 b then u64Of (toI64 pc + toI64 imm) else (pc + 4) % U64, regs, bus)
  | .Bge a b imm =>
    .ok (if toI64 b ≤ toI64 a then u64Of (toI64 pc + toI64 imm) else (pc + 4) % U64, regs, bus)
  | .Bltu a b imm =>
    .ok (if a < b then (pc + imm) % U64 else (pc + 4) % U64, regs, bus)
  | .Bgeu a b imm =>
    .ok (if b ≤ a then (pc + imm) % U64 else (pc + 4) % U64, regs, bus)
  | .Lb rd a imm =>
    match bus.load ((a + imm) % U64) B8 with
    | .ok v => .ok ((pc + 4) % U64, regs.set rd (u64Of (toI8 v)), bus)
    | .exc e => .exc e
    | .panic => .panic
  | .Lh rd a imm =>
    match bus.load ((a + imm) % U64) B16 with
    | .ok v => .ok ((pc + 4) % U64, regs.set rd (u64Of (toI16 v)), bus)
    | .exc e => .exc e
    | .panic => .panic
  | .Lw rd a imm =>
    match bus.load ((a + imm) % U64) B32 with
    | .ok v => .ok ((pc + 4) % U64, regs.set rd (u64Of (toI32 v)), bus)
    | .exc e => .exc e
    | .panic => .panic
  | .Lbu rd a imm =>
    match bus.load ((a + imm) % U64) B8 with
    | .ok v => .ok ((pc + 4) % U64, regs.set rd v, bus)
    | .exc e => .exc e
    | .panic => .panic
  | .Lhu rd a imm =>
    match bus.load ((a + imm) % U64) B16 with
    | .ok v => .ok ((pc + 4) % U64, regs.set rd v, bus)
    | .exc e => .exc e
    | .panic => .panic
  | .Sb a b imm =>
    match bus.store ((a + imm) % U64) B8 (b &&& 0xff) with
    | .ok bus2 => .ok ((pc + 4) % U64, regs, bus2)
    | .exc e => .exc e
    | .panic => .panic
  | .Sh a b imm =>
    match bus.store ((a + imm) % U64) B16 (b &&& 0xffff) with
    | .ok bus2 => .ok ((pc + 4) % U64, regs, bus2)
    | .exc e => .exc e
    | .panic => .panic
  | .Sw a b imm =>
    match bus.store ((a + imm) % U64) B32 (b &&& 0xffffffff) with
    | .ok bus2 => .ok ((pc + 4) % U64, regs, bus2)
    | .exc e => .exc e
    | .panic => .panic
  | .Addi rd a imm => .ok ((pc + 4) % U64, regs.set rd ((a + imm) % U64), bus)
  | .Slti rd a imm =>
    .ok ((pc + 4) % U64, regs.set rd (if toI64 a < toI64 imm then 1 else 0), bus)
  | .Sltiu rd a imm =>
    .ok ((pc + 4) % U64, regs.set rd (if a < imm then 1 else 0), bus)
  | .Xori rd a imm => .ok ((pc + 4) % U64, regs.set rd (a ^^^ imm), bus)
  | .Ori rd a imm => .ok ((pc + 4) % U64, regs.set rd (a ||| imm), bus)
  | .Andi rd a imm => .ok ((pc + 4) % U64, regs.set rd (a &&& imm), bus)
  | .Slli rd a shamt =>
    .ok ((pc + 4) % U64, regs.set rd ((a <<< (shamt % 64)) % U64), bus)
  | .Srli rd a shamt =>
    .ok ((pc + 4) % U64, regs.set rd ((a % U64) >>> (shamt % 64)), bus)
  | .Srai rd a shamt =>
    .ok ((pc + 4) % U64, regs.set rd (u64Of (sraI (toI64 a) (shamt % 64))), bus)
  | .Add rd a b => .ok ((pc + 4) % U64, regs.set rd ((a + b) % U64), bus)
  | .Sub rd a b =>
    .ok ((pc + 4) % U64, regs.set rd ((a % U64 + (U64 - b % U64)) % U64), bus)
  | .Sll rd a b =>
    .ok ((pc + 4) % U64, regs.set rd ((a <<< (b % U32 % 64)) % U64), bus)
  | .Slt rd a b =>
    .ok ((pc + 4) % U64, regs.set rd (if toI64 a < toI64 b then 1 else 0), bus)
  | .Sltu rd a b =>
    .ok ((pc + 4) % U64, regs.set rd (if a < b then 1 else 0), bus)
  | .Xor rd a b => .ok ((pc + 4) % U64, regs.set rd (a ^^^ b), bus)
  | .Srl rd a b =>
    .ok ((pc + 4) % U64, regs.set rd ((a % U64) >>> (b % U32 % 64)), bus)
  | .Sra rd a b =>
    .ok ((pc + 4) % U64, regs.set rd (u64Of (sraI (toI64 a) (b % U32 % 64))), bus)
  | .Or rd a b => .ok ((pc + 4) % U64, regs.set rd (a ||| b), bus)
  | .And rd a b => .ok ((pc + 4) % U64, regs.set rd (a &&& b), bus)

/-- `Rv64i::ex` from `isa.rs`; word shift-immediate `shamt` is re-masked
with 0x3f. -/
def Rv64i.ex (i : Rv64i) (regs : List Nat) : Rv64i :=
  match i with
  | .Lwu rd a imm => .Lwu rd (regs.getD a 0) imm
  | .Ld rd a imm => .Ld rd (regs.getD a 0) imm
  | .Sd a b imm => .Sd (regs.getD a 0) (regs.getD b 0) imm
  | .Addiw rd a imm => .Addiw rd (regs.getD a 0) imm
  | .Slliw rd a shamt => .Slliw rd (regs.getD a 0) (shamt &&& 0x3f)
  | .Srliw rd a shamt => .Srliw rd (regs.getD a 0) (shamt &&& 0x3f)
  | .Sraiw rd a shamt => .Sraiw rd (regs.getD a 0) (shamt &&& 0x3f)
  | .Addw rd a b => .Addw rd (regs.getD a 0) (regs.getD b 0)
  | .Subw rd a b => .Subw rd (regs.getD a 0) (regs.getD b 0)
  | .Sllw rd a b => .Sllw rd (regs.getD a 0) (regs.getD b 0)
  | .Srlw rd a b => .Srlw rd (regs.getD a 0) (regs.getD b 0)
  | .Sraw rd a b => .Sraw rd (regs.getD a 0) (regs.getD b 0)

/-- `Rv64i::wr` from `isa.rs`.  Note `Lwu` loads with width `B64`, i.e.
eight bytes. -/
def Rv64i.wr (i : Rv64i) (pc : Nat) (regs : List Nat) (bus : Bus) :
    EResult (Nat × List Nat × Bus) :=
  match i with
  | .Lwu rd a imm =>
    match bus.load ((a + imm) % U64) B64 with
    | .ok v => .ok ((pc + 4) % U64, regs.set rd v, bus)
    | .exc e => .exc e
    | .panic => .panic
  | .Ld rd a imm =>
    match bus.load ((a + imm) % U64) B64 with
    | .ok v => .ok ((pc + 4) % U64, regs.set rd v, bus)
    | .exc e => .exc e
    | .panic => .panic
  | .Sd a b imm =>
    match bus.store ((a + imm) % U64) B64 b with
    | .ok bus2 => .ok ((pc + 4) % U64, regs, bus2)
    | .exc e => .exc e
    | .panic => .panic
  | .Addiw rd a imm =>
    .ok ((pc + 4) % U64, regs.set rd (u64Of (toI32 ((a + imm) % U64))), bus)
  | .Slliw rd a shamt =>
    .ok ((pc + 4) % U64, regs.set rd (u64Of (toI32 ((a <<< (shamt % 64)) % U64))), bus)
  | .Srliw rd a shamt =>
    .ok ((pc + 4) % U64, regs.set rd (u64Of (toI32 ((a % U32) >>> (shamt % 32)))), bus)
  | .Sraiw rd a shamt =>
    .ok ((pc + 4) % U64, regs.set rd (u64Of (sraI (toI32 a) (shamt % 32))), bus)
  | .Addw rd a b =>
    .ok ((pc + 4) % U64, regs.set rd (u64Of (toI32 ((a + b) % U64))), bus)
  | .Subw rd a b =>
    .ok ((pc + 4) % U64, regs.set rd (u64Of (toI32 ((a % U64 + (U64 - b % U64)) % U64))), bus)
  | .Sllw rd a b =>
    .ok ((pc + 4) % U64, regs.set rd (u64Of (toI32 (((a % U32) <<< (b % U32 % 32)) % U32))), bus)
  | .Srlw rd a b =>
    .ok ((pc + 4) % U64, regs.set rd (u64Of (toI32 ((a % U32) >>> (b % U32 % 32)))), bus)
  | .Sraw rd a b =>
    .ok ((pc + 4) % U64, regs.set rd (u64Of (sraI (toI32 a) (b % U32 % 32))), bus)

/-- `Rv32i::src_regs` from `isa.rs`. -/
def Rv32i.src_regs (i : Rv32i) : List Nat :=
  match i with
  | .Lui _ _ => []
  | .Auipc _ _ => []
  | .Jal _ _ => []
  | .Jalr _ a _ => [a]
  | .Beq a b _ => [a, b]
  | .Bne a b _ => [a, b]
  | .Blt a b _ => [a, b]
  | .Bge a b _ => [a, b]
  | .Bltu a b _ => [a, b]
  | .Bgeu a b _ => [a, b]
  | .Lb _ a _ => [a]
  | .Lh _ a _ => [a]
  | .Lw _ a _ => [a]
  | .Lbu _ a _ => [a]
  | .Lhu _ a _ => [a]
  | .Sb a b _ => [a, b]
  | .Sh a b _ => [a, b]
  | .Sw a b _ => [a, b]
  | .Addi _ a _ => [a]
  | .Slti _ a _ => [a]
  | .Sltiu _ a _ => [a]
  | .Xori _ a _ => [a]
  | .Ori _ a _ => [a]
  | .Andi _ a _ => [a]
  | .Slli _ a _ => [a]
  | .Srli _ a _ => [a]
  | .Srai _ a _ => [a]
  | .Add _ a b => [a, b]
  | .Sub _ a b => [a, b]
  | .Sll _ a b => [a, b]
  | .Slt _ a b => [a, b]
  | .Sltu _ a b => [a, b]
  | .Xor _ a b => [a, b]
  | .Srl _ a b => [a, b]
  | .Sra _ a b => [a, b]
  | .Or _ a b => [a, b]
  | .And _ a b => [a, b]

/-- `Rv32i::dst_reg` from `isa.rs`. -/
def Rv32i.dst_reg (i : Rv32i) : Option Nat :=
  match i with
  | .Lui rd _ => some rd
  | .Auipc rd _ => some rd
  | .Jal rd _ => some rd
  | .Jalr rd _ _ => some rd
  | .Beq _ _ _ => none
  | .Bne _ _ _ => none
  | .Blt _ _ _ => none
  | .Bge _ _ _ => none
  | .Bltu _ _ _ => none
  | .Bgeu _ _ _ => none
  | .Lb rd _ _ => some rd
  | .Lh rd _ _ => some rd
  | .Lw rd _ _ => some rd
  | .Lbu rd _ _ => some rd
  | .Lhu rd _ _ => some rd
  | .Sb _ _ _ => none
  | .Sh _ _ _ => none
  | .Sw _ _ _ => none
  | .Addi rd _ _ => some rd
  | .Slti rd _ _ => some rd
  | .Sltiu rd _ _ => some rd
  | .Xori rd _ _ => some rd
  | .Ori rd _ _ => some rd
  | .Andi rd _ _ => some rd
  | .Slli rd _ _ => some rd
  | .Srli rd _ _ => some rd
  | .Srai rd _ _ => some rd
  | .Add rd _ _ => some rd
  | .Sub rd _ _ => some rd
  | .Sll rd _ _ => some rd
  | .Slt rd _ _ => some rd
  | .Sltu rd _ _ => some rd
  | .Xor rd _ _ => some rd
  | .Srl rd _ _ => some rd
  | .Sra rd _ _ => some rd
  | .Or rd _ _ => some rd
  | .And rd _ _ => some rd

/-- `Rv32i::src_mem_addr` from `isa.rs`. -/
def Rv32i.src_mem_addr (i : Rv32i) : Option Nat :=
  match i with
  | .Lb _ a imm => some ((a + imm) % U64)
  | .Lh _ a imm => some ((a + imm) % U64)
  | .Lw _ a imm => some ((a + imm) % U64)
  | .Lbu _ a imm => some ((a + imm) % U64)
  | .Lhu _ a imm => some ((a + imm) % U64)
  | _ => none

/-- `Rv32i::dst_mem_addr` from `isa.rs`. -/
def Rv32i.dst_mem_addr (i : Rv32i) : Option Nat :=
  match i with
  | .Sb a _ imm => some ((a + imm) % U64)
  | .Sh a _ imm => some ((a + imm) % U64)
  | .Sw a _ imm => some ((a + imm) % U64)
  | _ => none

/-- `Rv32i::is_ld` from `isa.rs`. -/
def Rv32i.is_ld (i : Rv32i) : Bool :=
  match i with
  | .Lb _ _ _ | .Lh _ _ _ | .Lw _ _ _ | .Lbu _ _ _ | .Lhu _ _ _ => true
  | _ => false

/-- `Rv32i::is_st` from `isa.rs`. -/
def Rv32i.is_st (i : Rv32i) : Bool :=
  match i with
  | .Sb _ _ _ | .Sh _ _ _ | .Sw _ _ _ => true
  | _ => false

/-- `Rv32i::is_br` from `isa.rs`. -/
def Rv32i.is_br (i : Rv32i) : Bool :=
  match i with
  | .Beq _ _ _ | .Bne _ _ _ | .Blt _ _ _ | .Bge _ _ _ | .Bltu _ _ _
  | .Bgeu _ _ _ => true
  | _ => false

/-- `Rv32i::is_jmp` from `isa.rs`. -/
def Rv32i.is_jmp (i : Rv32i) : Bool :=
  match i with
  | .Jal _ _ | .Jalr _ _ _ => true
  | _ => false

/-- `Rv64i::src_regs` from `isa.rs`. -/
def Rv64i.src_regs (i : Rv64i) : List Nat :=
  match i with
  | .Lwu _ a _ => [a]
  | .Ld _ a _ => [a]
  | .Sd a b _ => [a, b]
  | .Addiw _ a _ => [a]
  | .Slliw _ a _ => [a]
  | .Srliw _ a _ => [a]
  | .Sraiw _ a _ => [a]
  | .Addw _ a b => [a, b]
  | .Subw _ a b => [a, b]
  | .Sllw _ a b => [a, b]
  | .Srlw _ a b => [a, b]
  | .Sraw _ a b => [a, b]

/-- `Rv64i::dst_reg` from `isa.rs`. -/
def Rv64i.dst_reg (i : Rv64i) : Option Nat :=
  match i with
  | .Lwu rd _ _ => some rd
  | .Ld rd _ _ => some rd
  | .Sd _ _ _ => none
  | .Addiw rd _ _ => some rd
  | .Slliw rd _ _ => some rd
  | .Srliw rd _ _ => some rd
  | .Sraiw rd _ _ => some rd
  | .Addw rd _ _ => some rd
  | .Subw rd _ _ => some rd
  | .Sllw rd _ _ => some rd
  | .Srlw rd _ _ => some rd
  | .Sraw rd _ _ => some rd

/-- `Rv64i::src_mem_addr` from `isa.rs`. -/
def Rv64i.src_mem_addr (i : Rv64i) : Option Nat :=
  match i with
  | .Lwu _ a imm => some ((a + imm) % U64)
  | .Ld _ a imm => some ((a + imm) % U64)
  | _ => none

/-- `Rv64i::dst_mem_addr` from `isa.rs`. -/
def Rv64i.dst_mem_addr (i : Rv64i) : Option Nat :=
  match i with
  | .Sd a _ imm => some ((a + imm) % U64)
  | _ => none

/-- `Rv64i::is_ld` from `isa.rs`. -/
def Rv64i.is_ld (i : Rv64i) : Bool :=
  match i with
  | .Lwu _ _ _ | .Ld _ _ _ => true
  | _ => false

/-- `Rv64i::is_st` from `isa.rs`. -/
def Rv64i.is_st (i : Rv64i) : Bool :=
  match i with
  | .Sd _ _ _ => true
  | _ => false

/-- `Rv64i::is_br` from `isa.rs`: always false. -/
def Rv64i.is_br (_ : Rv64i) : Bool := false

/-- `Rv64i::is_jmp` from `isa.rs`: always false. -/
def Rv64i.is_jmp (_ : Rv64i) : Bool := false

/-- Union of the two extension families, as dispatched by the cores'
`pipeline` (try `Rv32i::id`, then `Rv64i::id`). -/
inductive Instr where
  | rv32 (i : Rv32i)
  | rv64 (i : Rv64i)
deriving DecidableEq, Repr

/-- Dispatch of `ex` over the union. -/
def Instr.ex (i : Instr) (regs : List Nat) : Instr :=
  match i with
  | .rv32 a => .rv32 (a.ex regs)
  | .rv64 a => .rv64 (a.ex regs)

/-- Dispatch of `wr` over the union. -/
def Instr.wr (i : Instr) (pc : Nat) (regs : List Nat) (bus : Bus) :
    EResult (Nat × List Nat × Bus) :=
  match i with
  | .rv32 a => a.wr pc regs bus
  | .rv64 a => a.wr pc regs bus

/-- Dispatch of `src_regs` over the union. -/
def Instr.src_regs (i : Instr) : List Nat :=
  match i with
  | .rv32 a => a.src_regs
  | .rv64 a => a.src_regs

/-- Dispatch of `dst_reg` over the union. -/
def Instr.dst_reg (i : Instr) : Option Nat :=
  match i with
  | .rv32 a => a.dst_reg
  | .rv64 a => a.dst_reg

/-- Dispatch of `src_mem_addr` over the union. -/
def Instr.src_mem_addr (i : Instr) : Option Nat :=
  match i with
  | .rv32 a => a.src_mem_addr
  | .rv64 a => a.src_mem_addr

/-- Dispatch of `dst_mem_addr` over the union. -/
def Instr.dst_mem_addr (i : Instr) : Option Nat :=
  match i with
  | .rv32 a => a.dst_mem_addr
  | .rv64 a => a.dst_mem_addr

/-- Dispatch of `is_ld` over the union. -/
def Instr.is_ld (i : Instr) : Bool :=
  match i with
  | .rv32 a => a.is_ld
  | .rv64 a => a.is_ld

/-- Dispatch of `is_st` over the union. -/
def Instr.is_st (i : Instr) : Bool :=
  match i with
  | .rv32 a => a.is_st
  | .rv64 a => a.is_st

/-- Dispatch of `is_br` over the union. -/
def Instr.is_br (i : Instr) : Bool :=
  match i with
  | .rv32 a => a.is_br
  | .rv64 a => a.is_br

/-- Dispatch of `is_jmp` over the union. -/
def Instr.is_jmp (i : Instr) : Bool :=
  match i with
  | .rv32 a => a.is_jmp
  | .rv64 a => a.is_jmp

/-- The value left in register `i` by a successful `wr`, if any. -/
def wrRegValue (r : EResult (Nat × List Nat × Bus)) (i : Nat) : Option Nat :=
  match r with
  | .ok (_, regs, _) => some (regs.getD i 0)
  | _ => none

instance {ε α : Type} [DecidableEq ε] [DecidableEq α] :
    DecidableEq (Except ε α) := fun x y =>
  match x, y with
  | .ok a, .ok b =>
    match decEq a b with
    | isTrue h => isTrue (h ▸ rfl)
    | isFalse h => isFalse fun hc => h (by injection hc)
  | .error a, .error b =>
    match decEq a b with
    | isTrue h => isTrue (h ▸ rfl)
    | isFalse h => isFalse fun hc => h (by injection hc)
  | .ok _, .error _ => isFalse fun hc => Except.noConfusion hc
  | .error _, .ok _ => isFalse fun hc => Except.noConfusion hc

/-- C1 (code bug): the decoder masks the base-ISA shift-immediate `shamt`
with 0xf, not 0x1f.  The word 0x01009093 encodes SLLI x1, x1, 16, yet it
decodes to a `Slli` with `shamt = 0`, and executing it with x1 = 1 leaves
x1 = 1 instead of the architectural 1 <<< 16 = 65536. -/
theorem c1_slli_shamt_truncated :
    Rv32i.id 0x01009093 = .ok (.Slli 1 1 0) ∧
    wrRegValue
      (Rv32i.wr (Rv32i.ex (.Slli 1 1 0) ((List.replicate 32 0).set 1 1)) 0
        ((List.replicate 32 0).set 1 1) (Bus.new [])) 1 = some 1 ∧
    (1 : Nat) ≠ 2 ^ 16 := by
  refine ⟨by decide, by decide, by decide⟩

/-- C2 (code bug): `Rv64i::wr` executes LWU with width `B64`: it reads
eight bytes, not four, and does not zero the upper 32 bits of `rd`.  With
all eight bytes at the effective address equal to 0xff, the resolved
`Lwu` writes 2^64 - 1 into `rd` — its upper 32 bits are set — where a
4-byte zero-extending load would have written 0xffffffff. -/
theorem c2_lwu_loads_eight_bytes :
    wrRegValue
      (Rv64i.wr (.Lwu 1 RAM_BASE 0) 0 (List.replicate 32 0)
        (Bus.new (List.replicate 8 255))) 1 = some (2 ^ 64 - 1) ∧
    ¬ (2 ^ 64 - 1 : Nat) < 2 ^ 32 ∧
    (2 ^ 64 - 1 : Nat) ≠ 0xffffffff := by
  refine ⟨by decide, by decide, by decide⟩

/-- Sign extension of a 32-bit value into 64 bits, as the spec words it. -/
def spec_sign_extend_32_to_64 (w : Nat) : Nat :=
  if w % U32 < 2147483648 then w % U32 else w % U32 + (U64 - U32)

/-- ADDW per the spec: sign-extend the low 32 bits of the wrapping sum. -/
def spec_addw (a b : Nat) : Nat :=
  spec_sign_extend_32_to_64 ((a + b) % U32)

/-- SUBW per the spec: sign-extend the low 32 bits of the wrapping
difference. -/
def spec_subw (a b : Nat) : Nat :=
  spec_sign_extend_32_to_64 ((a % U32 + (U32 - b % U32)) % U32)

/-- SLLW per the spec: shift the low 32 bits left by the low five bits of
the second operand, truncate to 32 bits, sign-extend. -/
def spec_sllw (a b : Nat) : Nat :=
  spec_sign_extend_32_to_64 (((a % U32) <<< (b % 32)) % U32)

/-- SRLW per the spec: logical right shift of the low 32 bits, then
sign-extend the 32-bit result. -/
def spec_srlw (a b : Nat) : Nat :=
  spec_sign_extend_32_to_64 ((a % U32) >>> (b % 32))

/-- SRAW per the spec: arithmetic right shift of the low 32 bits, then
sign-extend the 32-bit result. -/
def spec_sraw (a b : Nat) : Nat :=
  spec_sign_extend_32_to_64 ((sraI (toI32 a) (b % 32) % (U32 : Int)).toNat)

lemma u64Of_toI32 (t : Nat) :
    u64Of (toI32 t) = spec_sign_extend_32_to_64 t := by
  unfold u64Of toI32 spec_sign_extend_32_to_64 U32 U64
  by_cases h : t % 4294967296 < 2147483648
  · rw [if_pos h, if_pos h]
    omega
  · rw [if_neg h, if_neg h]
    omega

lemma spec_se_congr (s t : Nat) (h : s % U32 = t % U32) :
    spec_sign_extend_32_to_64 s = spec_sign_extend_32_to_64 t := by
  unfold spec_sign_extend_32_to_64
  rw [h]

lemma mod_u64_mod_u32 (t : Nat) : t % U64 % U32 = t % U32 :=
  Nat.mod_mod_of_dvd t ⟨4294967296, by norm_num [U64, U32]⟩

lemma mod_u32_mod_32 (t : Nat) : t % U32 % 32 = t % 32 :=
  Nat.mod_mod_of_dvd t ⟨134217728, by norm_num [U32]⟩

lemma toI32_bounds (t : Nat) :
    -2147483648 ≤ toI32 t ∧ toI32 t < 2147483648 := by
  unfold toI32 U32
  split <;> omega

lemma sraI_bounds (x : Int) (s : Nat) (h1 : -2147483648 ≤ x)
    (h2 : x < 2147483648) :
    -2147483648 ≤ sraI x s ∧ sraI x s < 2147483648 := by
  cases x with
  | ofNat n =>
    have hle : n >>> s ≤ n := by
      rw [Nat.shiftRight_eq_div_pow]
      exact Nat.div_le_self _ _
    simp only [sraI, Int.ofNat_eq_coe] at h2 ⊢
    generalize hg : n >>> s = k at hle ⊢
    omega
  | negSucc n =>
    have hle : n >>> s ≤ n := by
      rw [Nat.shiftRight_eq_div_pow]
      exact Nat.div_le_self _ _
    simp only [sraI] at h1 ⊢
    rw [Int.negSucc_eq] at h1 ⊢
    generalize hg : n >>> s = k at hle ⊢
    omega

lemma u64Of_sraI_toI32 (t s : Nat) :
    u64Of (sraI (toI32 t) s) =
      spec_sign_extend_32_to_64 ((sraI (toI32 t) s % (U32 : Int)).toNat) := by
  obtain ⟨hb1, hb2⟩ := toI32_bounds t
  obtain ⟨h1, h2⟩ := sraI_bounds (toI32 t) s hb1 hb2
  generalize hg : sraI (toI32 t) s = x at h1 h2
  unfold u64Of spec_sign_extend_32_to_64 U32 U64
  split_ifs with hc <;> omega

/-- C9: the 64-bit word-width register operations match the spec's
formulas: ADDW and SUBW sign-extend the low 32 bits of the wrapping sum
and difference, and SLLW, SRLW, SRAW shift the low 32 bits of the first
operand by the low five bits of the second (logical left, logical right,
arithmetic right) and sign-extend the 32-bit result into 64 bits. -/
theorem c9_word_ops_sign_extend (r0 a b pc : Nat) (regs : List Nat) (bus : Bus) :
    Rv64i.wr (.Addw r0 a b) pc regs bus =
      .ok ((pc + 4) % U64, regs.set r0 (spec_addw a b), bus) ∧
    Rv64i.wr (.Subw r0 a b) pc regs bus =
      .ok ((pc + 4) % U64, regs.set r0 (spec_subw a b), bus) ∧
    Rv64i.wr (.Sllw r0 a b) pc regs bus =
      .ok ((pc + 4) % U64, regs.set r0 (spec_sllw a b), bus) ∧
    Rv64i.wr (.Srlw r0 a b) pc regs bus =
      .ok ((pc + 4) % U64, regs.set r0 (spec_srlw a b), bus) ∧
    Rv64i.wr (.Sraw r0 a b) pc regs bus =
      .ok ((pc + 4) % U64, regs.set r0 (spec_sraw a b), bus) := by
  refine ⟨?_, ?_, ?_, ?_, ?_⟩
  · have h : u64Of (toI32 ((a + b) % U64)) = spec_addw a b := by
      rw [u64Of_toI32]
      unfold spec_addw
      exact spec_se_congr _ _ (by unfold U64 U32; omega)
    simp only [Rv64i.wr, h]
  · have h : u64Of (toI32 ((a % U64 + (U64 - b % U64)) % U64)) = spec_subw a b := by
      rw [u64Of_toI32]
      unfold spec_subw
      exact spec_se_congr _ _ (by unfold U64 U32; omega)
    simp only [Rv64i.wr, h]
  · have h : u64Of (toI32 (((a % U32) <<< (b % U32 % 32)) % U32)) = spec_sllw a b := by
      rw [u64Of_toI32, mod_u32_mod_32]
      rfl
    simp only [Rv64i.wr, h]
  · have h : u64Of (toI32 ((a % U32) >>> (b % U32 % 32))) = spec_srlw a b := by
      rw [u64Of_toI32, mod_u32_mod_32]
      rfl
    simp only [Rv64i.wr, h]
  · have h : u64Of (sraI (toI32 a) (b % U32 % 32)) = spec_sraw a b := by
      rw [mod_u32_mod_32, u64Of_sraI_toI32]
      rfl
    simp only [Rv64i.wr, h]

/-- The stats counters bumped by the cores' datapaths. -/
structure Stats where
  cycles : Nat
  stalls : Nat
  alu_ops : Nat
  mem_ops : Nat
deriving DecidableEq, Repr

/-- `Stats::new`. -/
def Stats.new : Stats := ⟨0, 0, 0, 0⟩

/-- The per-instruction counter bump of every datapath: a memory op bumps
`mem_ops`, anything else bumps `alu_ops`. -/
def Stats.bump (st : Stats) (isMem : Bool) : Stats :=
  if isMem then { st with mem_ops := st.mem_ops + 1 }
  else { st with alu_ops := st.alu_ops + 1 }

/-- The instruction fetch shared by the `pipeline` of dart, kronos and
atlas: an eight-byte bus load at the program counter, truncated to a
32-bit word (`bus.load(pc, B64)? as u32`). -/
def fetchWord (bus : Bus) (pc : Nat) : EResult Nat :=
  match bus.load pc B64 with
  | .ok v => .ok (v % U32)
  | .exc e => .exc e
  | .panic => .panic

/-- The decode dispatch shared by the cores' `pipeline`: try `Rv32i::id`,
then `Rv64i::id`, otherwise `IllegalInstruction`. -/
def decodeIns (ins : Nat) : Except Exception Instr :=
  match Rv32i.id ins with
  | .ok i => .ok (.rv32 i)
  | .error _ =>
    match Rv64i.id ins with
    | .ok i => .ok (.rv64 i)
    | .error _ => .error (.IllegalInstruction ins)

/-- Result of one pipeline step of a core: a new state, an architectural
exception together with the state at the point of the error, or a panic. -/
inductive StepRes (σ : Type) where
  | ok (s : σ)
  | fault (e : Exception) (s : σ)
  | panic

/-- True exactly when a pipeline step panicked. -/
def StepRes.panicked {σ : Type} : StepRes σ → Bool
  | .panic => true
  | _ => false

/-- Register-zero postcondition of a pipeline step: whenever the step
produces a state, register-file index 0 of that state holds zero. -/
def regZeroAfter {σ : Type} (regsOf : σ → List Nat) : StepRes σ → Prop
  | .ok s => (regsOf s).getD 0 0 = 0
  | .fault _ s => (regsOf s).getD 0 0 = 0
  | .panic => True

/-- `DartSoC` state from `dart.rs`. -/
structure DartState where
  regs : List Nat
  pc : Nat
  bus : Bus
  stats : Stats

/-- `DartSoC::new`. -/
def dartInit (bin : List Nat) : DartState :=
  ⟨(List.replicate 32 0).set 2 RAM_END, RAM_BASE, Bus.new bin, Stats.new⟩

/-- `DartSoC::datapath` from `dart.rs`: resolve sources, bump stats, zero
x0, apply the write step, re-zero x0. -/
def dartDatapath (i : Instr) (s : DartState) : StepRes DartState :=
  let insEx := i.ex s.regs
  let stats2 := s.stats.bump (insEx.is_ld || insEx.is_st)
  let regs1 := s.regs.set 0 0
  match insEx.wr s.pc regs1 s.bus with
  | .ok (pc2, regs2, bus2) =>
    .ok { regs := regs2.set 0 0, pc := pc2, bus := bus2, stats := stats2 }
  | .exc e => .fault e { s with regs := regs1, stats := stats2 }
  | .panic => .panic

/-- `DartSoC::pipeline` from `dart.rs`. -/
def dartPipeline (s : DartState) : StepRes DartState :=
  match fetchWord s.bus s.pc with
  | .ok ins =>
    match decodeIns ins with
    | .ok i => dartDatapath i s
    | .error e => .fault e s
  | .exc e => .fault e s
  | .panic => .panic

/-- `HistItem` from `kronos.rs`. -/
structure KronosHistItem where
  src_regs : List Nat
  dst_reg : Option Nat
  blocking : Bool
deriving DecidableEq, Repr

/-- The history entry `KronosSoC::datapath` records for an instruction:
note `blocking` is `is_ld || is_st`. -/
def kronosRecord (i : Instr) : KronosHistItem :=
  ⟨i.src_regs, i.dst_reg, i.is_ld || i.is_st⟩

/-- `KronosSoC` state from `kronos.rs`. -/
structure KronosState where
  regs : List Nat
  pc : Nat
  bus : Bus
  stats : Stats
  hist : List KronosHistItem

/-- `KronosSoC::new`. -/
def kronosInit (bin : List Nat) : KronosState :=
  ⟨(List.replicate 32 0).set 2 RAM_END, RAM_BASE, Bus.new bin, Stats.new, []⟩

/-- `KronosSoC::datapath` from `kronos.rs`. -/
def kronosDatapath (i : Instr) (s : KronosState) : StepRes KronosState :=
  let record := kronosRecord i
  let insEx := i.ex s.regs
  let stats2 := s.stats.bump (insEx.is_ld || insEx.is_st)
  let regs1 := s.regs.set 0 0
  match insEx.wr s.pc regs1 s.bus with
  | .ok (pc2, regs2, bus2) =>
    .ok { regs := regs2.set 0 0, pc := pc2, bus := bus2, stats := stats2,
          hist := s.hist ++ [record] }
  | .exc e => .fault e { s with regs := regs1, stats := stats2 }
  | .panic => .panic

/-- `KronosSoC::pipeline` from `kronos.rs`. -/
def kronosPipeline (s : KronosState) : StepRes KronosState :=
  match fetchWord s.bus s.pc with
  | .ok ins =>
    match decodeIns ins with
    | .ok i => kronosDatapath i s
    | .error e => .fault e s
  | .exc e => .fault e s
  | .panic => .panic

/-- `HistItem` from `atlas.rs`. -/
structure AtlasHistItem where
  src_regs : List Nat
  src_mem : Option Nat
  dst_reg : Option Nat
  dst_mem : Option Nat
  blocking : Bool
deriving DecidableEq, Repr

/-- The history entry `AtlasSoC::datapath` records for an instruction:
note `blocking` is `is_br || is_jmp`. -/
def atlasRecord (i : Instr) : AtlasHistItem :=
  ⟨i.src_regs, i.src_mem_addr, i.dst_reg, i.dst_mem_addr, i.is_br || i.is_jmp⟩

/-- `AtlasSoC` state from `atlas.rs`. -/
structure AtlasState where
  regs : List Nat
  pc : Nat
  bus : Bus
  stats : Stats
  hist : List AtlasHistItem

/-- `AtlasSoC::new`. -/
def atlasInit (bin : List Nat) : AtlasState :=
  ⟨(List.replicate 32 0).set 2 RAM_END, RAM_BASE, Bus.new bin, Stats.new, []⟩

/-- `AtlasSoC::datapath` from `atlas.rs`. -/
def atlasDatapath (i : Instr) (s : AtlasState) : StepRes AtlasState :=
  let record := atlasRecord i
  let insEx := i.ex s.regs
  let stats2 := s.stats.bump (insEx.is_ld || insEx.is_st)
  let regs1 := s.regs.set 0 0
  match insEx.wr s.pc regs1 s.bus with
  | .ok (pc2, regs2, bus2) =>
    .ok { regs := regs2.set 0 0, pc := pc2, bus := bus2, stats := stats2,
          hist := s.hist ++ [record] }
  | .exc e => .fault e { s with regs := regs1, stats := stats2 }
  | .panic => .panic

/-- `AtlasSoC::pipeline` from `atlas.rs`. -/
def atlasPipeline (s : AtlasState) : StepRes AtlasState :=
  match fetchWord s.bus s.pc with
  | .ok ins =>
    match decodeIns ins with
    | .ok i => atlasDatapath i s
    | .error e => .fault e s
  | .exc e => .fault e s
  | .panic => .panic

/-- States of the dart core reachable at instruction-step boundaries,
including the state carried by a step that raised an exception (the
execute loop continues from it when the exception is non-fatal). -/
inductive DartReachable (bin : List Nat) : DartState → Prop where
  | start : DartReachable bin (dartInit bin)
  | step_ok {s s'} : DartReachable bin s → dartPipeline s = .ok s' →
      DartReachable bin s'
  | step_fault {s s' e} : DartReachable bin s → dartPipeline s = .fault e s' →
      DartReachable bin s'

/-- States of the kronos core reachable at instruction-step boundaries. -/
inductive KronosReachable (bin : List Nat) : KronosState → Prop where
  | start : KronosReachable bin (kronosInit bin)
  | step_ok {s s'} : KronosReachable bin s → kronosPipeline s = .ok s' →
      KronosReachable bin s'
  | step_fault {s s' e} : KronosReachable bin s → kronosPipeline s = .fault e s' →
      KronosReachable bin s'

/-- States of the atlas core reachable at instruction-step boundaries. -/
inductive AtlasReachable (bin : List Nat) : AtlasState → Prop where
  | start : AtlasReachable bin (atlasInit bin)
  | step_ok {s s'} : AtlasReachable bin s → atlasPipeline s = .ok s' →
      AtlasReachable bin s'
  | step_fault {s s' e} : AtlasReachable bin s → atlasPipeline s = .fault e s' →
      AtlasReachable bin s'

lemma set_zero_getD (regs : List Nat) : (regs.set 0 0).getD 0 0 = 0 := by
  cases regs <;> simp [List.set, List.getD]

lemma dartDatapath_post (i : Instr) (s : DartState) :
    regZeroAfter DartState.regs (dartDatapath i s) := by
  unfold dartDatapath
  dsimp only
  split
  · exact set_zero_getD _
  · exact set_zero_getD _
  · trivial

lemma kronosDatapath_post (i : Instr) (s : KronosState) :
    regZeroAfter KronosState.regs (kronosDatapath i s) := by
  unfold kronosDatapath
  dsimp only
  split
  · exact set_zero_getD _
  · exact set_zero_getD _
  · trivial

lemma atlasDatapath_post (i : Instr) (s : AtlasState) :
    regZeroAfter AtlasState.regs (atlasDatapath i s) := by
  unfold atlasDatapath
  dsimp only
  split
  · exact set_zero_getD _
  · exact set_zero_getD _
  · trivial

lemma dartPipeline_post (s : DartState) (h0 : s.regs.getD 0 0 = 0) :
    regZeroAfter DartState.regs (dartPipeline s) := by
  unfold dartPipeline
  split
  · split
    · exact dartDatapath_post _ _
    · exact h0
  · exact h0
  · trivial

lemma kronosPipeline_post (s : KronosState) (h0 : s.regs.getD 0 0 = 0) :
    regZeroAfter KronosState.regs (kronosPipeline s) := by
  unfold kronosPipeline
  split
  · split
    · exact kronosDatapath_post _ _
    · exact h0
  · exact h0
  · trivial

lemma atlasPipeline_post (s : AtlasState) (h0 : s.regs.getD 0 0 = 0) :
    regZeroAfter AtlasState.regs (atlasPipeline s) := by
  unfold atlasPipeline
  split
  · split
    · exact atlasDatapath_post _ _
    · exact h0
  · exact h0
  · trivial

/-- C3: in every reachable instruction-step-boundary state of the dart,
kronos and atlas cores, register-file index 0 holds zero (so every source
read of x0 during the next step's resolve sees 0); moreover every datapath
execution — in particular of an instruction whose destination register is
0 — leaves register 0 equal to zero in the produced state. -/
theorem c3_reg0_zero_invariant :
    (∀ (bin : List Nat) (s : DartState), DartReachable bin s →
      s.regs.getD 0 0 = 0) ∧
    (∀ (bin : List Nat) (s : KronosState), KronosReachable bin s →
      s.regs.getD 0 0 = 0) ∧
    (∀ (bin : List Nat) (s : AtlasState), AtlasReachable bin s →
      s.regs.getD 0 0 = 0) ∧
    (∀ (i : Instr) (s : DartState), regZeroAfter DartState.regs (dartDatapath i s)) ∧
    (∀ (i : Instr) (s : KronosState), regZeroAfter KronosState.regs (kronosDatapath i s)) ∧
    (∀ (i : Instr) (s : AtlasState), regZeroAfter AtlasState.regs (atlasDatapath i s)) := by
  refine ⟨?_, ?_, ?_, dartDatapath_post, kronosDatapath_post, atlasDatapath_post⟩
  · intro bin s h
    induction h with
    | start =>
      show ((List.replicate 32 0).set 2 RAM_END).getD 0 0 = 0
      decide
    | step_ok h hstep ih =>
      have hp := dartPipeline_post _ ih
      rw [hstep] at hp
      exact hp
    | step_fault h hstep ih =>
      have hp := dartPipeline_post _ ih
      rw [hstep] at hp
      exact hp
  · intro bin s h
    induction h with
    | start =>
      show ((List.replicate 32 0).set 2 RAM_END).getD 0 0 = 0
      decide
    | step_ok h hstep ih =>
      have hp := kronosPipeline_post _ ih
      rw [hstep] at hp
      exact hp
    | step_fault h hstep ih =>
      have hp := kronosPipeline_post _ ih
      rw [hstep] at hp
      exact hp
  · intro bin s h
    induction h with
    | start =>
      show ((List.replicate 32 0).set 2 RAM_END).getD 0 0 = 0
      decide
    | step_ok h hstep ih =>
      have hp := atlasPipeline_post _ ih
      rw [hstep] at hp
      exact hp
    | step_fault h hstep ih =>
      have hp := atlasPipeline_post _ ih
      rw [hstep] at hp
      exact hp

/-- Witness for C3: the invariant applied to the initial (reachable)
states of the three cores. -/
theorem c3_reg0_zero_invariant_witness :
    (dartInit []).regs.getD 0 0 = 0 ∧ (kronosInit []).regs.getD 0 0 = 0 ∧
    (atlasInit []).regs.getD 0 0 = 0 :=
  ⟨c3_reg0_zero_invariant.1 [] _ DartReachable.start,
   c3_reg0_zero_invariant.2.1 [] _ KronosReachable.start,
   c3_reg0_zero_invariant.2.2.1 [] _ AtlasReachable.start⟩

lemma loadBytes_lt (n : Nat) :
    ∀ (m : Mem) (addr v : Nat), m.loadBytes addr n = some v → v < 256 ^ n := by
  induction n with
  | zero =>
    intro m addr v h
    simp [Mem.loadBytes] at h
    omega
  | succ n ih =>
    intro m addr v h
    simp only [Mem.loadBytes] at h
    by_cases ha : addr < m.size
    · rw [if_pos ha] at h
      rcases hr : m.loadBytes (addr+1) n with _ | rest
      · rw [hr] at h; exact absurd h (by simp)
      · rw [hr] at h
        have hb := ih m (addr+1) rest hr
        have hv : v = m.bytes addr % 256 + 256 * rest := by
          injection h with h2
          omega
        have hbyte : m.bytes addr % 256 < 256 := Nat.mod_lt _ (by norm_num)
        rw [pow_succ, mul_comm (256 ^ n) 256]
        omega
    · rw [if_neg ha] at h
      exact absurd h (by simp)

lemma loadBytes_split (k n : Nat) :
    ∀ (m : Mem) (addr v : Nat), m.loadBytes addr (k + n) = some v →
    ∃ lo hi, m.loadBytes addr k = some lo ∧ m.loadBytes (addr + k) n = some hi ∧
      v = lo + 256 ^ k * hi := by
  induction k with
  | zero =>
    intro m addr v h
    exact ⟨0, v, rfl, by simpa using h, by omega⟩
  | succ k ih =>
    intro m addr v h
    have hkn : (k + 1) + n = (k + n) + 1 := by omega
    rw [hkn] at h
    simp only [Mem.loadBytes] at h
    by_cases ha : addr < m.size
    · rw [if_pos ha] at h
      rcases hr : m.loadBytes (addr+1) (k + n) with _ | rest
      · rw [hr] at h; exact absurd h (by simp)
      · rw [hr] at h
        have hv : v = m.bytes addr % 256 + 256 * rest := by
          injection h with h2
          omega
        obtain ⟨lo, hi, hlo, hhi, hrest⟩ := ih m (addr+1) rest hr
        refine ⟨m.bytes addr % 256 + 256 * lo, hi, ?_, ?_, ?_⟩
        · simp only [Mem.loadBytes]
          rw [if_pos ha, hlo]
        · have : addr + (k + 1) = addr + 1 + k := by omega
          rw [this]
          exact hhi
        · subst hrest hv
          rw [pow_succ, mul_comm (256 ^ k) 256]
          ring
    · rw [if_neg ha] at h
      exact absurd h (by simp)

/-- C6 (amended): every core's pipeline fetches by reading eight bytes
from the bus at the program counter and truncating to the low 32 bits;
a fetch succeeds whenever the eight bytes at the program counter lie
inside RAM, and the fetched word then equals the four-byte little-endian
value at the program counter.  (The claim's "exactly four bytes" is
false: a fetch whose four bytes lie in RAM but whose eight-byte read
overruns the top of RAM panics, see the counterexample.) -/
theorem c6_fetch_eight_bytes_amended (b : Bus) (pc : Nat)
    (hsz : b.mem.size = RAM_SIZE) (h1 : RAM_BASE ≤ pc)
    (h2 : pc - RAM_BASE + 8 ≤ RAM_SIZE) :
    ∃ w, fetchWord b pc = .ok w ∧ b.mem.load (pc - RAM_BASE) B32 = some w := by
  have hin : RAM_BASE ≤ pc ∧ pc ≤ RAM_END := by
    unfold RAM_END RAM_BASE RAM_SIZE at *
    omega
  obtain ⟨v, hv⟩ := loadBytes_total 8 b.mem (pc - RAM_BASE) (by omega)
  obtain ⟨lo, hi, hlo, hhi, hsum⟩ := loadBytes_split 4 4 b.mem (pc - RAM_BASE) v hv
  have hlolt : lo < 256 ^ 4 := loadBytes_lt 4 b.mem _ lo hlo
  refine ⟨lo, ?_, hlo⟩
  unfold fetchWord Bus.load
  rw [if_pos hin]
  unfold Mem.load
  rw [show B64.size = 8 from rfl, hv]
  show EResult.ok (v % U32) = EResult.ok lo
  have hmod : v % U32 = lo := by
    subst hsum
    unfold U32
    have h4 : (256 : Nat) ^ 4 = 4294967296 := by norm_num
    rw [← h4]
    omega
  rw [hmod]

/-- Witness for C6: a fetch at `RAM_BASE` on a fresh bus succeeds and
returns the four-byte word 0 found there. -/
theorem c6_fetch_eight_bytes_amended_witness :
    ∃ w, fetchWord (Bus.new []) RAM_BASE = .ok w ∧
      (Bus.new []).mem.load (RAM_BASE - RAM_BASE) B32 = some w :=
  c6_fetch_eight_bytes_amended (Bus.new []) RAM_BASE rfl (Nat.le_refl _)
    (by decide)

/-- Counterexample for C6: with the program counter at `RAM_END - 3` the
four bytes at the program counter lie inside RAM, yet the pipeline step of
each core panics, because the fetch reads eight bytes. -/
theorem c6_fetch_panics_at_ram_top :
    (dartPipeline { dartInit [] with pc := RAM_END - 3 }).panicked = true ∧
    (kronosPipeline { kronosInit [] with pc := RAM_END - 3 }).panicked = true ∧
    (atlasPipeline { atlasInit [] with pc := RAM_END - 3 }).panicked = true ∧
    RAM_BASE ≤ RAM_END - 3 ∧ (RAM_END - 3) - RAM_BASE + 4 ≤ RAM_SIZE := by
  refine ⟨by decide, by decide, by decide, by decide, by decide⟩

/-- `intersect` from `kronos.rs` / `atlas.rs`: the elements of `a` also
contained in `b`. -/
def intersect (a b : List Nat) : List Nat :=
  a.filter (fun x => b.contains x)

/-- One accounting cycle of `KronosSoC::calc_stats`, iterating the history
entries paired with their executed flags: a not-yet-executed entry fires
when none of its source registers is occupied; its destination register is
then occupied whether or not it fired; a blocking entry bumps stalls and
cuts the cycle short (the remaining entries keep their flags).  Returns
the new flags, the stalls counter, and whether the cycle was cut short. -/
def kronosCycleIter : List (KronosHistItem × Bool) → List Nat → Nat →
    (List Bool × Nat × Bool)
  | [], _, stalls => ([], stalls, false)
  | (h, done) :: rest, occ, stalls =>
    if done then
      let r := kronosCycleIter rest occ stalls
      (true :: r.1, r.2)
    else
      let fired := (intersect h.src_regs occ).isEmpty
      let occ2 := match h.dst_reg with
        | some d => occ ++ [d]
        | none => occ
      if h.blocking then
        (fired :: rest.map Prod.snd, stalls + 1, true)
      else
        let r := kronosCycleIter rest occ2 stalls
        (fired :: r.1, r.2)

/-- One accounting cycle of kronos starting with empty occupied sets. -/
def kronosCycle (hist : List KronosHistItem) (executed : List Bool)
    (stalls : Nat) : List Bool × Nat × Bool :=
  kronosCycleIter (hist.zip executed) [] stalls

/-- The accounting loop of `KronosSoC::calc_stats`, with an explicit bound
`fuel` on the number of cycles; `none` when the bound is exhausted.  A
cycle cut short by a blocking entry skips the all-executed check. -/
def kronosLoop (hist : List KronosHistItem) :
    Nat → List Bool → Nat → Nat → Option (Nat × Nat)
  | 0, _, _, _ => none
  | fuel+1, executed, cycles, stalls =>
    let r := kronosCycle hist executed stalls
    if r.2.2 then
      kronosLoop hist fuel r.1 (cycles + 1) r.2.1
    else if r.1.all (fun x => x) then
      some (cycles + 1, r.2.1)
    else
      kronosLoop hist fuel r.1 (cycles + 1) r.2.1

/-- `KronosSoC::calc_stats` on a history, bounded by `fuel` cycles. -/
def kronos_calc_stats (hist : List KronosHistItem) (fuel : Nat) :
    Option (Nat × Nat) :=
  kronosLoop hist fuel (List.replicate hist.length false) 0 0

/-- One accounting cycle of `AtlasSoC::calc_stats`: like kronos, but a
load additionally requires its source address to be unoccupied, and store
destination addresses are occupied as well. -/
def atlasCycleIter : List (AtlasHistItem × Bool) → List Nat → List Nat →
    Nat → (List Bool × Nat × Bool)
  | [], _, _, stalls => ([], stalls, false)
  | (h, done) :: rest, occR, occA, stalls =>
    if done then
      let r := atlasCycleIter rest occR occA stalls
      (true :: r.1, r.2)
    else
      let fired := (intersect h.src_regs occR).isEmpty &&
        (match h.src_mem with
         | some a => !(occA.contains a)
         | none => true)
      let occR2 := match h.dst_reg with
        | some d => occR ++ [d]
        | none => occR
      let occA2 := match h.dst_mem with
        | some a => occA ++ [a]
        | none => occA
      if h.blocking then
        (fired :: rest.map Prod.snd, stalls + 1, true)
      else
        let r := atlasCycleIter rest occR2 occA2 stalls
        (fired :: r.1, r.2)

/-- One accounting cycle of atlas starting with empty occupied sets. -/
def atlasCycle (hist : List AtlasHistItem) (executed : List Bool)
    (stalls : Nat) : List Bool × Nat × Bool :=
  atlasCycleIter (hist.zip executed) [] [] stalls

/-- The accounting loop of `AtlasSoC::calc_stats`, bounded by `fuel`. -/
def atlasLoop (hist : List AtlasHistItem) :
    Nat → List Bool → Nat → Nat → Option (Nat × Nat)
  | 0, _, _, _ => none
  | fuel+1, executed, cycles, stalls =>
    let r := atlasCycle hist executed stalls
    if r.2.2 then
      atlasLoop hist fuel r.1 (cycles + 1) r.2.1
    else if r.1.all (fun x => x) then
      some (cycles + 1, r.2.1)
    else
      atlasLoop hist fuel r.1 (cycles + 1) r.2.1

/-- `AtlasSoC::calc_stats` on a history, bounded by `fuel` cycles. -/
def atlas_calc_stats (hist : List AtlasHistItem) (fuel : Nat) :
    Option (Nat × Nat) :=
  atlasLoop hist fuel (List.replicate hist.length false) 0 0

/-- Counterexample for C4: kronos records `blocking = false` for a branch
(BEQ), so the claim that both out-of-order variants mark every branch or
jump blocking is false — in kronos only loads and stores are blocking. -/
theorem c4_kronos_branch_not_blocking :
    Instr.is_br (.rv32 (.Beq 1 2 8)) = true ∧
    (kronosRecord (.rv32 (.Beq 1 2 8))).blocking = false := by
  decide

/-- C4 (amended): in atlas the recorded entry of every branch or jump is
blocking; in kronos (the stricter memory variant) the entry of every load
or store is blocking, while branch and jump entries are not blocking. -/
theorem c4_blocking_flags_amended (i : Instr) :
    ((i.is_br || i.is_jmp) = true → (atlasRecord i).blocking = true) ∧
    ((i.is_ld || i.is_st) = true → (kronosRecord i).blocking = true) ∧
    ((i.is_br || i.is_jmp) = true → (kronosRecord i).blocking = false) := by
  refine ⟨fun h => h, fun h => h, fun h => ?_⟩
  cases i with
  | rv32 a =>
    cases a <;> simp_all [Instr.is_br, Instr.is_jmp, Rv32i.is_br, Rv32i.is_jmp,
      kronosRecord, Instr.is_ld, Instr.is_st, Rv32i.is_ld, Rv32i.is_st]
  | rv64 a =>
    cases a <;> simp_all [Instr.is_br, Instr.is_jmp, Rv64i.is_br, Rv64i.is_jmp,
      kronosRecord, Instr.is_ld, Instr.is_st, Rv64i.is_ld, Rv64i.is_st]

/-- Witness for C4: a jump is blocking in atlas but not in kronos, and a
load is blocking in kronos. -/
theorem c4_blocking_flags_amended_witness :
    (atlasRecord (.rv32 (.Jal 1 8))).blocking = true ∧
    (kronosRecord (.rv64 (.Ld 1 2 0))).blocking = true ∧
    (kronosRecord (.rv32 (.Jal 1 8))).blocking = false :=
  ⟨(c4_blocking_flags_amended (.rv32 (.Jal 1 8))).1 (by decide),
   (c4_blocking_flags_amended (.rv64 (.Ld 1 2 0))).2.1 (by decide),
   (c4_blocking_flags_amended (.rv32 (.Jal 1 8))).2.2 (by decide)⟩

/-- Counterexample for C5: in both kronos and atlas, a history entry whose
only source register is 0 fails the emptiness-of-intersection check in a
cycle where an earlier entry with destination register 0 was visited — the
firing of the second entry is prevented on account of register 0, and the
flags after the first cycle are [true, false] instead of [true, true]. -/
theorem c5_reg0_blocks_firing :
    (kronosCycle [⟨[], some 0, false⟩, ⟨[0], some 1, false⟩]
      [false, false] 0).1 = [true, false] ∧
    (atlasCycle [⟨[], none, some 0, none, false⟩, ⟨[0], none, some 1, none, false⟩]
      [false, false] 0).1 = [true, false] := by
  decide

/-- C5 (amended): register index 0 receives no special treatment in the
accounting phase: for every register index d — including d = 0 — an entry
whose source set is [d] does not fire in a cycle in which an earlier
visited entry has destination register d, in both kronos and atlas. -/
theorem c5_occupied_uniform_amended (d : Nat) :
    (kronosCycle [⟨[], some d, false⟩, ⟨[d], some 1, false⟩]
      [false, false] 0).1 = [true, false] ∧
    (atlasCycle [⟨[], none, some d, none, false⟩, ⟨[d], none, some 1, none, false⟩]
      [false, false] 0).1 = [true, false] := by
  constructor
  · simp [kronosCycle, kronosCycleIter, intersect]
  · simp [atlasCycle, atlasCycleIter, intersect]

/-- Number of false flags in a list of executed flags. -/
def countFalse : List Bool → Nat
  | [] => 0
  | b :: t => (if b then 0 else 1) + countFalse t

lemma countFalse_zero_mem {l : List Bool} (h : countFalse l = 0) :
    ∀ b ∈ l, b = true := by
  induction l with
  | nil => intro b hb; simp at hb
  | cons x t ih =>
    intro b hb
    cases x
    · simp [countFalse] at h
    · simp only [countFalse, if_pos rfl] at h
      rcases List.mem_cons.mp hb with hb | hb
      · exact hb
      · exact ih (by omega) b hb

lemma countFalse_replicate (n : Nat) :
    countFalse (List.replicate n false) = n := by
  induction n with
  | zero => rfl
  | succ n ih =>
    simp [List.replicate, countFalse, ih]
    omega

lemma intersect_nil (a : List Nat) : intersect a [] = [] := by
  simp [intersect]

lemma zip_map_snd {α β : Type} :
    ∀ (a : List α) (b : List β), b.length ≤ a.length →
    (a.zip b).map Prod.snd = b := by
  intro a
  induction a with
  | nil =>
    intro b hb
    cases b with
    | nil => rfl
    | cons y u => simp at hb
  | cons x t ih =>
    intro b hb
    cases b with
    | nil => rfl
    | cons y u =>
      simp only [List.zip_cons_cons, List.map_cons]
      rw [ih u (by simpa using hb)]

lemma kronos_iter_len :
    ∀ (l : List (KronosHistItem × Bool)) (occ : List Nat) (st : Nat),
    (kronosCycleIter l occ st).1.length = l.length := by
  intro l
  induction l with
  | nil => intro occ st; rfl
  | cons p rest ih =>
    intro occ st
    obtain ⟨h, done⟩ := p
    cases done
    · by_cases hb : h.blocking
      · simp [kronosCycleIter, hb]
      · simp [kronosCycleIter, hb, ih]
    · simp [kronosCycleIter, ih]

lemma kronos_iter_mono :
    ∀ (l : List (KronosHistItem × Bool)) (occ : List Nat) (st : Nat),
    countFalse (kronosCycleIter l occ st).1 ≤ countFalse (l.map Prod.snd) := by
  intro l
  induction l with
  | nil => intro occ st; simp [kronosCycleIter]
  | cons p rest ih =>
    intro occ st
    obtain ⟨h, done⟩ := p
    cases done
    · by_cases hb : h.blocking
      · simp [kronosCycleIter, hb, countFalse]
        split <;> omega
      · cases hd : h.dst_reg with
        | some d =>
          have h2 := ih (occ ++ [d]) st
          simp [kronosCycleIter, hb, hd, countFalse]
          split <;> omega
        | none =>
          have h2 := ih occ st
          simp [kronosCycleIter, hb, hd, countFalse]
          split <;> omega
    · have h2 := ih occ st
      simp [kronosCycleIter, countFalse]
      omega

lemma kronos_iter_strict :
    ∀ (l : List (KronosHistItem × Bool)) (st : Nat),
    0 < countFalse (l.map Prod.snd) →
    countFalse (kronosCycleIter l [] st).1 < countFalse (l.map Prod.snd) := by
  intro l
  induction l with
  | nil => intro st h; simp [countFalse] at h
  | cons p rest ih =>
    intro st hpos
    obtain ⟨h, done⟩ := p
    cases done
    · have hfired : (intersect h.src_regs []).isEmpty = true := by
        rw [intersect_nil]; rfl
      by_cases hb : h.blocking
      · simp [kronosCycleIter, hb, hfired, countFalse]
      · cases hd : h.dst_reg with
        | some d =>
          have h2 := kronos_iter_mono rest [d] st
          simp [kronosCycleIter, hb, hd, hfired, countFalse]
          omega
        | none =>
          have h2 := kronos_iter_mono rest [] st
          simp [kronosCycleIter, hb, hd, hfired, countFalse]
          omega
    · have h2 := ih st
      simp [kronosCycleIter, countFalse] at hpos ⊢
      exact h2 hpos

lemma kronos_iter_alltrue :
    ∀ (l : List (KronosHistItem × Bool)) (occ : List Nat) (st : Nat),
    (∀ p ∈ l, p.2 = true) →
    kronosCycleIter l occ st = (l.map Prod.snd, st, false) := by
  intro l
  induction l with
  | nil => intro occ st _; rfl
  | cons p rest ih =>
    intro occ st hall
    obtain ⟨h, done⟩ := p
    have hd : done = true := hall (h, done) (by simp)
    subst hd
    simp [kronosCycleIter, ih occ st (fun p hp => hall p (by simp [hp]))]

lemma kronosLoop_total (hist : List KronosHistItem) :
    ∀ (fuel : Nat) (executed : List Bool) (cycles stalls : Nat),
    executed.length = hist.length →
    countFalse executed < fuel →
    ∃ r, kronosLoop hist fuel executed cycles stalls = some r := by
  intro fuel
  induction fuel with
  | zero =>
    intro executed cycles stalls _ hcf
    exact absurd hcf (by omega)
  | succ f ihf =>
    intro executed cycles stalls hlen hcf
    have hmapsnd : (hist.zip executed).map Prod.snd = executed :=
      zip_map_snd hist executed (by omega)
    by_cases hz : countFalse executed = 0
    · have hall : ∀ p ∈ hist.zip executed, p.2 = true := by
        intro p hp
        obtain ⟨a, b⟩ := p
        exact countFalse_zero_mem hz _ (List.of_mem_zip hp).2
      have hcalc : kronosCycle hist executed stalls = (executed, stalls, false) := by
        rw [kronosCycle, kronos_iter_alltrue _ _ _ hall, hmapsnd]
      have hallb : executed.all (fun x => x) = true := by
        rw [List.all_eq_true]
        intro x hx
        exact countFalse_zero_mem hz x hx
      refine ⟨(cycles + 1, stalls), ?_⟩
      simp only [kronosLoop, hcalc]
      simp [hallb]
    · rcases hcy : kronosCycle hist executed stalls with ⟨flags, st2, broke⟩
      have hflen : flags.length = hist.length := by
        have hl := kronos_iter_len (hist.zip executed) [] stalls
        rw [← kronosCycle, hcy] at hl
        simpa [List.length_zip, hlen] using hl
      have hstrict := kronos_iter_strict (hist.zip executed) stalls
        (by rw [hmapsnd]; omega)
      rw [hmapsnd, ← kronosCycle, hcy] at hstrict
      simp only at hstrict
      have hrec := ihf flags (cycles + 1) st2 hflen (by omega)
      obtain ⟨r, hr⟩ := hrec
      cases broke
      · by_cases hall2 : flags.all (fun x => x) = true
        · exact ⟨(cycles + 1, st2), by simp only [kronosLoop, hcy]; simp [hall2]⟩
        · exact ⟨r, by simp only [kronosLoop, hcy]; simp [hall2, hr]⟩
      · exact ⟨r, by simp only [kronosLoop, hcy]; simp [hr]⟩

lemma atlas_iter_len :
    ∀ (l : List (AtlasHistItem × Bool)) (occR occA : List Nat) (st : Nat),
    (atlasCycleIter l occR occA st).1.length = l.length := by
  intro l
  induction l with
  | nil => intro occR occA st; rfl
  | cons p rest ih =>
    intro occR occA st
    obtain ⟨h, done⟩ := p
    cases done
    · by_cases hb : h.blocking
      · simp [atlasCycleIter, hb]
      · simp [atlasCycleIter, hb, ih]
    · simp [atlasCycleIter, ih]

lemma atlas_iter_mono :
    ∀ (l : List (AtlasHistItem × Bool)) (occR occA : List Nat) (st : Nat),
    countFalse (atlasCycleIter l occR occA st).1 ≤ countFalse (l.map Prod.snd) := by
  intro l
  induction l with
  | nil => intro occR occA st; simp [atlasCycleIter]
  | cons p rest ih =>
    intro occR occA st
    obtain ⟨h, done⟩ := p
    cases done
    · by_cases hb : h.blocking
      · simp [atlasCycleIter, hb, countFalse]
        split <;> omega
      · cases hd : h.dst_reg with
        | some d =>
          cases hm : h.dst_mem with
          | some a =>
            have h2 := ih (occR ++ [d]) (occA ++ [a]) st
            simp [atlasCycleIter, hb, hd, hm, countFalse]
            split <;> omega
          | none =>
            have h2 := ih (occR ++ [d]) occA st
            simp [atlasCycleIter, hb, hd, hm, countFalse]
            split <;> omega
        | none =>
          cases hm : h.dst_mem with
          | some a =>
            have h2 := ih occR (occA ++ [a]) st
            simp [atlasCycleIter, hb, hd, hm, countFalse]
            split <;> omega
          | none =>
            have h2 := ih occR occA st
            simp [atlasCycleIter, hb, hd, hm, countFalse]
            split <;> omega
    · have h2 := ih occR occA st
      simp [atlasCycleIter, countFalse]
      omega

lemma atlas_iter_strict :
    ∀ (l : List (AtlasHistItem × Bool)) (st : Nat),
    0 < countFalse (l.map Prod.snd) →
    countFalse (atlasCycleIter l [] [] st).1 < countFalse (l.map Prod.snd) := by
  intro l
  induction l with
  | nil => intro st h; simp [countFalse] at h
  | cons p rest ih =>
    intro st hpos
    obtain ⟨h, done⟩ := p
    cases done
    · by_cases hb : h.blocking
      · cases hs : h.src_mem <;>
          simp [atlasCycleIter, hb, hs, intersect_nil, countFalse]
      · cases hd : h.dst_reg with
        | some d =>
          cases hm : h.dst_mem with
          | some a =>
            have h2 := atlas_iter_mono rest [d] [a] st
            cases hs : h.src_mem <;>
              simp [atlasCycleIter, hb, hd, hm, hs, intersect_nil, countFalse] <;>
              omega
          | none =>
            have h2 := atlas_iter_mono rest [d] [] st
            cases hs : h.src_mem <;>
              simp [atlasCycleIter, hb, hd, hm, hs, intersect_nil, countFalse] <;>
              omega
        | none =>
          cases hm : h.dst_mem with
          | some a =>
            have h2 := atlas_iter_mono rest [] [a] st
            cases hs : h.src_mem <;>
              simp [atlasCycleIter, hb, hd, hm, hs, intersect_nil, countFalse] <;>
              omega
          | none =>
            have h2 := atlas_iter_mono rest [] [] st
            cases hs : h.src_mem <;>
              simp [atlasCycleIter, hb, hd, hm, hs, intersect_nil, countFalse] <;>
              omega
    · have h2 := ih st
      simp [atlasCycleIter, countFalse] at hpos ⊢
      exact h2 hpos

lemma atlas_iter_alltrue :
    ∀ (l : List (AtlasHistItem × Bool)) (occR occA : List Nat) (st : Nat),
    (∀ p ∈ l, p.2 = true) →
    atlasCycleIter l occR occA st = (l.map Prod.snd, st, false) := by
  intro l
  induction l with
  | nil => intro occR occA st _; rfl
  | cons p rest ih =>
    intro occR occA st hall
    obtain ⟨h, done⟩ := p
    have hd : done = true := hall (h, done) (by simp)
    subst hd
    simp [atlasCycleIter, ih occR occA st (fun p hp => hall p (by simp [hp]))]

lemma atlasLoop_total (hist : List AtlasHistItem) :
    ∀ (fuel : Nat) (executed : List Bool) (cycles stalls : Nat),
    executed.length = hist.length →
    countFalse executed < fuel →
    ∃ r, atlasLoop hist fuel executed cycles stalls = some r := by
  intro fuel
  induction fuel with
  | zero =>
    intro executed cycles stalls _ hcf
    exact absurd hcf (by omega)
  | succ f ihf =>
    intro executed cycles stalls hlen hcf
    have hmapsnd : (hist.zip executed).map Prod.snd = executed :=
      zip_map_snd hist executed (by omega)
    by_cases hz : countFalse executed = 0
    · have hall : ∀ p ∈ hist.zip executed, p.2 = true := by
        intro p hp
        obtain ⟨a, b⟩ := p
        exact countFalse_zero_mem hz _ (List.of_mem_zip hp).2
      have hcalc : atlasCycle hist executed stalls = (executed, stalls, false) := by
        rw [atlasCycle, atlas_iter_alltrue _ _ _ _ hall, hmapsnd]
      have hallb : executed.all (fun x => x) = true := by
        rw [List.all_eq_true]
        intro x hx
        exact countFalse_zero_mem hz x hx
      refine ⟨(cycles + 1, stalls), ?_⟩
      simp only [atlasLoop, hcalc]
      simp [hallb]
    · rcases hcy : atlasCycle hist executed stalls with ⟨flags, st2, broke⟩
      have hflen : flags.length = hist.length := by
        have hl := atlas_iter_len (hist.zip executed) [] [] stalls
        rw [← atlasCycle, hcy] at hl
        simpa [List.length_zip, hlen] using hl
      have hstrict := atlas_iter_strict (hist.zip executed) stalls
        (by rw [hmapsnd]; omega)
      rw [hmapsnd, ← atlasCycle, hcy] at hstrict
      simp only at hstrict
      have hrec := ihf flags (cycles + 1) st2 hflen (by omega)
      obtain ⟨r, hr⟩ := hrec
      cases broke
      · by_cases hall2 : flags.all (fun x => x) = true
        · exact ⟨(cycles + 1, st2), by simp only [atlasLoop, hcy]; simp [hall2]⟩
        · exact ⟨r, by simp only [atlasLoop, hcy]; simp [hall2, hr]⟩
      · exact ⟨r, by simp only [atlasLoop, hcy]; simp [hr]⟩

/-- C10: the out-of-order accounting loop terminates for every finite
history: for a history of N entries, running the kronos or atlas
accounting with a budget of N + 1 cycles reaches the all-executed exit —
each cycle fires at least the earliest not-yet-executed entry (which is
visited with empty occupied sets), so the number of unexecuted entries
strictly decreases until one final cycle observes completion. -/
theorem c10_calc_stats_terminates :
    (∀ hist : List KronosHistItem,
      ∃ r, kronos_calc_stats hist (hist.length + 1) = some r) ∧
    (∀ hist : List AtlasHistItem,
      ∃ r, atlas_calc_stats hist (hist.length + 1) = some r) := by
  constructor
  · intro hist
    show ∃ r, kronosLoop hist (hist.length + 1)
      (List.replicate hist.length false) 0 0 = some r
    exact kronosLoop_total hist (hist.length + 1) _ 0 0 (by simp)
      (by rw [countFalse_replicate]; omega)
  · intro hist
    show ∃ r, atlasLoop hist (hist.length + 1)
      (List.replicate hist.length false) 0 0 = some r
    exact atlasLoop_total hist (hist.length + 1) _ 0 0 (by simp)
      (by rw [countFalse_replicate]; omega)

end Mur
